import Mathlib

/-!
# Verification of the mini-swe-agent `DefaultAgent` control loop

Shallow embedding of `src/minisweagent/agents/default.py` (class `DefaultAgent`):
the agent loop, limit checks, context-window tracking and trajectory persistence.
Python dictionaries are embedded as association lists over a JSON-like `Value`
type; the external collaborators (model client, execution environment, template
renderer, the persisted context-window map and the filesystem) are embedded as
an `Oracles` record of pure functions, so theorems quantify over every possible
collaborator behaviour.  Exceptions are embedded with `Except`; float
arithmetic is embedded with exact rationals.
-/

namespace Mini

/-- A Python value as it occurs in the agent's message dictionaries.
`null` is Python `None`; `obj` is an object-like value carrying an optional
`model_dump()` result and its attribute dictionary. -/
inductive Value where
  | null : Value
  | int (n : Int) : Value
  | float (q : ℚ) : Value
  | str (s : String) : Value
  | list (xs : List Value) : Value
  | dict (entries : List (String × Value)) : Value
  | obj (modelDump : Option (List (String × Value))) (attrs : List (String × Value)) : Value

/-- A message is a Python dict (association list keyed by strings). -/
abbrev Msg := List (String × Value)

/-- `d.get(k)` on a dict, returning `none` when the key is absent. -/
def pyDictGet (d : List (String × Value)) (k : String) : Option Value :=
  (d.find? (fun p => p.1 == k)).map (fun p => p.2)

/-- `d.get(k)` collapsing an absent key to Python `None`. -/
def pyGet (m : Msg) (k : String) : Value :=
  (pyDictGet m k).getD Value.null

/-- `d.get(k, default)`. -/
def pyGetD (m : Msg) (k : String) (dflt : Value) : Value :=
  (pyDictGet m k).getD dflt

/-- `d[k] = v` on a Python dict: update in place, or append a new key. -/
def dictSet : List (String × Value) → String → Value → List (String × Value)
  | [], k, v => [(k, v)]
  | kv0 :: t, k, v => if kv0.1 == k then (k, v) :: t else kv0 :: dictSet t k v

/-- `base |= updates` / `{**base, **updates}`. -/
def dictUpdate (base : List (String × Value)) (updates : List (String × Value)) :
    List (String × Value) :=
  updates.foldl (fun d kv => dictSet d kv.1 kv.2) base

/-- Python truthiness of a `Value`. -/
def Value.truthy : Value → Bool
  | .null => false
  | .int n => n != 0
  | .float q => q != 0
  | .str s => s != ""
  | .list xs => !xs.isEmpty
  | .dict xs => !xs.isEmpty
  | .obj _ _ => true

mutual
/-- Modelled from the spec: `recursive_merge` from `minisweagent.utils.serialize`
(not under `src/`): mapping keys combine recursively; non-mapping leaf values
from later arguments override earlier ones. -/
def mergeVal : Value → Value → Value
  | Value.dict a, Value.dict b => Value.dict (mergeEntries a b)
  | _, b => b
termination_by a b => (sizeOf b, 0)
decreasing_by
  apply Prod.Lex.left
  simp <;> omega

/-- Merge the entries of a later dict into an earlier one, key by key. -/
def mergeEntries (a : List (String × Value)) : List (String × Value) → List (String × Value)
  | [] => a
  | (k, v) :: rest => mergeEntries (mergeSet a k v) rest
termination_by l => (sizeOf l, 0)
decreasing_by
  all_goals apply Prod.Lex.left
  all_goals simp <;> omega

/-- Set one key in a dict, deep-merging with any existing value at that key. -/
def mergeSet : List (String × Value) → String → Value → List (String × Value)
  | [], k, v => [(k, v)]
  | kv0 :: t, k, v =>
    if kv0.1 == k then (kv0.1, mergeVal kv0.2 v) :: t else kv0 :: mergeSet t k v
termination_by a _ v => (sizeOf v, sizeOf a)
decreasing_by
  all_goals first
    | (apply Prod.Lex.right; simp <;> omega)
    | (apply Prod.Lex.left; simp <;> omega)
end

/-- `recursive_merge(a, *rest)`. -/
def recursiveMergeAll (a : Value) (rest : List Value) : Value :=
  rest.foldl mergeVal a

/-- Exceptions that can cross the agent's method boundaries.
Modelled from the spec: `LimitsExceeded` and `InterruptAgentFlow` come from
`minisweagent.exceptions` (not under `src/`); per spec sections 4.4 and 7 the
limits signal is caught at the step boundary exactly like the flow interrupt
and both carry messages to inject, so both are flow interrupts here.  Any other
exception is `uncaught`, carrying its class name, text and formatted traceback. -/
inductive PyExc where
  | limitsExceeded (messages : List Msg) : PyExc
  | interruptAgentFlow (messages : List Msg) : PyExc
  | uncaught (name : String) (text : String) (tb : String) : PyExc

/-- Whether `except InterruptAgentFlow` catches this exception. -/
def PyExc.isFlowInterrupt : PyExc → Bool
  | .limitsExceeded _ => true
  | .interruptAgentFlow _ => true
  | .uncaught _ _ _ => false

/-- The messages carried by a flow-interrupting exception (`e.messages`). -/
def PyExc.messages : PyExc → List Msg
  | .limitsExceeded ms => ms
  | .interruptAgentFlow ms => ms
  | .uncaught _ _ _ => []

/-- `type(e).__name__`. -/
def PyExc.clsName : PyExc → String
  | .limitsExceeded _ => "LimitsExceeded"
  | .interruptAgentFlow _ => "InterruptAgentFlow"
  | .uncaught n _ _ => n

/-- `str(e)`. -/
def PyExc.text : PyExc → String
  | .limitsExceeded _ => ""
  | .interruptAgentFlow _ => ""
  | .uncaught _ t _ => t

/-- `traceback.format_exc()` at the point the exception is handled. -/
def PyExc.tb : PyExc → String
  | .limitsExceeded _ => ""
  | .interruptAgentFlow _ => ""
  | .uncaught _ _ tb => tb

/-- The external collaborators of one run, embedded as pure functions.
`modelQuery` is keyed by the invocation index so a stateful model client is
representable; `liveOk`/`snapOk` give the outcome of the n-th live-log /
snapshot file write attempt; `lookupCW` is the normalized lookup into the
persisted context-window map (`minisweagent.models.context_window`, not under
`src/`, modelled from the spec). -/
structure Oracles where
  modelQuery : Nat → List Msg → Except PyExc Msg
  formatObs : Msg → List Value → Value → List Msg
  modelTV : List (String × Value)
  envTV : List (String × Value)
  modelSer : Value
  envSer : Value
  envExecute : Nat → Value → Except PyExc Value
  render : String → Value → Except PyExc String
  liveOk : Nat → Bool
  snapOk : Nat → Bool
  modelName : Option String
  lookupCW : String → Option Int
  normName : String → String
  cwMapKeys : List String
  miniVersion : String

/-- The mutable per-run state of a `DefaultAgent`, together with the immutable
`AgentConfig` fields it was constructed with.  Fields prefixed `g_` are ghost
instrumentation recording the externally observable effects (collaborator
calls in order, file write attempts and their outcomes, snapshots built) and
are written exactly at the source line where the corresponding call happens;
they are not part of the Python object's state. -/
structure AgentState where
  system_template : String
  instance_template : String
  step_limit : Int
  cost_limit : ℚ
  output_path : Option String
  live_path : Option String
  context_window_mode : String
  messages : List Msg
  extra_template_vars : List (String × Value)
  cost : ℚ
  n_calls : Int
  context_window_max : Option Int
  context_window_prompt_tokens : Option Int
  context_left_percent : Option Int
  g_started : Nat
  g_completed : Nat
  g_env_calls : List Value
  g_live_writes : List Bool
  g_snap_writes : List Bool
  g_saves : List Value
  g_map_updates : List (String × Int)

/-- Modelled from the spec: the model collaborator's
`format_message(role, content, extra)` builds the Message
`{role, content, extra}` (spec sections 3 and 6; the models package is not
under `src/`). -/
def formatMessage (role content : String) (extra : List (String × Value)) : Msg :=
  [("role", Value.str role), ("content", Value.str content), ("extra", Value.dict extra)]

/-- The synthetic terminal message raised with `LimitsExceeded`
(`default.py` lines 146-152). -/
def limitsExceededMessage : Msg :=
  [("role", Value.str "exit"), ("content", Value.str "LimitsExceeded"),
   ("extra", Value.dict
     [("exit_status", Value.str "LimitsExceeded"), ("submission", Value.str "")])]

/-- The guard of the limit check: `0 < self.config.step_limit <= self.n_calls
or 0 < self.config.cost_limit <= self.cost` (`default.py` line 145). -/
def limitsHit (st : AgentState) : Bool :=
  (decide (0 < st.step_limit) && decide (st.step_limit ≤ st.n_calls)) ||
  (decide (0 < st.cost_limit) && decide (st.cost_limit ≤ st.cost))

/-- `DefaultAgent.add_messages` (`default.py` lines 87-100): extend the
in-memory sequence; if a live path is set, attempt one file write whose
failure is caught and only logged (the attempt and its outcome are recorded
as ghost data). -/
def add_messages (o : Oracles) (st : AgentState) (msgs : List Msg) :
    AgentState × List Msg :=
  let st1 := { st with messages := st.messages ++ msgs }
  match st1.live_path with
  | none => (st1, msgs)
  | some _ =>
    let ok := o.liveOk st1.g_live_writes.length
    ({ st1 with g_live_writes := st1.g_live_writes ++ [ok] }, msgs)

/-- `DefaultAgent.handle_uncaught_exception` (`default.py` lines 102-114). -/
def handle_uncaught_exception (o : Oracles) (st : AgentState) (e : PyExc) :
    AgentState × List Msg :=
  add_messages o st
    [formatMessage "exit" e.text
      [("exit_status", Value.str e.clsName), ("submission", Value.str ""),
       ("exception_str", Value.str e.text), ("traceback", Value.str e.tb)]]

/-- `DefaultAgent._resolve_context_window_max` (`default.py` lines 167-188).
The map lookup (with name normalization) and the map keys are oracle data;
`_prompt_for_context_window` returns `None` (`default.py` line 191), so the
interactive branch resolves nothing and its map write (guarded by the prompt
returning a value) can never fire; map writes are recorded as ghost data. -/
def resolve_context_window_max (o : Oracles) (st : AgentState) : AgentState :=
  match st.context_window_max with
  | some _ => st
  | none =>
    match o.modelName with
    | none => st
    | some raw =>
      let name := raw.trim
      if name == "" then st
      else
        let resolved := o.lookupCW name
        let prompted : Option Int := none
        let resolved2 : Option Int :=
          if resolved.isNone && (st.context_window_mode == "interactive") then prompted
          else resolved
        match resolved2 with
        | none => st
        | some r =>
          let st := { st with context_window_max := some r }
          if ((o.cwMapKeys.map o.normName).contains (o.normName name)) then st
          else { st with g_map_updates := st.g_map_updates ++ [(name, r)] }

/-- The usage-value precedence chain of `DefaultAgent._extract_prompt_tokens`
(`default.py` lines 206-216), given the entries of a mapping `extra`: the
nested `extra.response.usage` mapping (when `response` is a truthy mapping),
then the message-level `usage` mapping, then the `model_dump()` / `__dict__`
object fallbacks; `Value.null` when none yields a value. -/
def usageChain (message : Msg) (exs : List (String × Value)) : Value :=
  let response := (pyDictGet exs "response").getD Value.null
  let usage1 : Value :=
    match response with
    | Value.dict rxs =>
      if (Value.dict rxs).truthy then (pyDictGet rxs "usage").getD Value.null
      else Value.null
    | _ => Value.null
  let usage2 : Value :=
    match usage1 with
    | Value.null =>
      match pyGet message "usage" with
      | Value.dict uxs => Value.dict uxs
      | _ => Value.null
    | u => u
  let usage3 : Value :=
    match usage2 with
    | Value.null =>
      match pyGet message "usage" with
      | Value.obj (some md) _ => Value.dict md
      | _ => Value.null
    | u => u
  let usage4 : Value :=
    match usage3 with
    | Value.null =>
      match pyGet message "usage" with
      | Value.obj _ attrs => Value.dict attrs
      | _ => Value.null
    | u => u
  usage4

/-- `DefaultAgent._extract_prompt_tokens`, usage-resolution part
(`default.py` lines 206-216): `extra = message.get("extra") or {}`, then the
fixed precedence chain of `usageChain`; a truthy non-mapping `extra` raises
`AttributeError` (Python `extra.get` would). -/
def resolveUsage (message : Msg) : Except PyExc Value :=
  match if (pyGet message "extra").truthy then pyGet message "extra" else Value.dict [] with
  | Value.dict exs => Except.ok (usageChain message exs)
  | _ => Except.error (PyExc.uncaught "AttributeError" "object has no attribute get" "")

/-- `DefaultAgent._extract_prompt_tokens` (`default.py` lines 204-220):
resolve the usage value, then return its `prompt_tokens` entry when and only
when that entry is an integer. -/
def extract_prompt_tokens (message : Msg) : Except PyExc (Option Int) :=
  match resolveUsage message with
  | Except.error e => Except.error e
  | Except.ok u =>
    match u with
    | Value.dict uxs =>
      match (pyDictGet uxs "prompt_tokens").getD Value.null with
      | Value.int n => Except.ok (some n)
      | _ => Except.ok none
    | _ => Except.ok none

/-- Python `int()` applied to an exact rational: truncation toward zero. -/
def pyTrunc (q : ℚ) : Int :=
  if 0 ≤ q then ⌊q⌋ else ⌈q⌉

/-- `DefaultAgent._update_context_window_stats` (`default.py` lines 193-202).
Returns the updated state together with the (possibly annotated) message. -/
def update_context_window_stats (st : AgentState) (message : Msg) :
    Except PyExc (AgentState × Msg) :=
  match extract_prompt_tokens message with
  | Except.error e => Except.error e
  | Except.ok none => Except.ok (st, message)
  | Except.ok (some pt) =>
    let st := { st with context_window_prompt_tokens := some pt }
    match st.context_window_max with
    | none => Except.ok (st, message)
    | some cw =>
      if cw == 0 then Except.ok (st, message)
      else
        let left : Int := pyTrunc (100 * (1 - ((pt : ℚ) / (cw : ℚ))))
        let clamped := max 0 (min 100 left)
        Except.ok ({ st with context_left_percent := some clamped },
          dictSet message "context_left_percent" (Value.int clamped))

/-- `self.config.model_dump()`: the agent configuration as template variables. -/
def configDump (st : AgentState) : Value :=
  Value.dict
    [("system_template", Value.str st.system_template),
     ("instance_template", Value.str st.instance_template),
     ("step_limit", Value.int st.step_limit),
     ("cost_limit", Value.float st.cost_limit),
     ("output_path", match st.output_path with
       | none => Value.null
       | some p => Value.str p)]

/-- An optional integer as a Python value. -/
def optIntV : Option Int → Value
  | none => Value.null
  | some n => Value.int n

/-- The live run statistics merged into the template variables
(`default.py` lines 73-79). -/
def statsVars (st : AgentState) : Value :=
  Value.dict
    [("n_model_calls", Value.int st.n_calls),
     ("model_cost", Value.float st.cost),
     ("context_window_max", optIntV st.context_window_max),
     ("context_window_prompt_tokens", optIntV st.context_window_prompt_tokens),
     ("context_left_percent", optIntV st.context_left_percent)]

/-- `DefaultAgent.get_template_vars` (`default.py` lines 68-82). -/
def get_template_vars (o : Oracles) (st : AgentState) (kwargs : List (String × Value)) :
    Value :=
  recursiveMergeAll (configDump st)
    [Value.dict o.envTV, Value.dict o.modelTV, statsVars st,
     Value.dict st.extra_template_vars, Value.dict kwargs]

/-- `message.get("extra", {}).get("cost", 0.0)` and the `+=` on `self.cost`
(`default.py` line 158): a missing cost contributes `0.0`; a truthy non-dict
`extra` raises `AttributeError`, a non-numeric cost raises `TypeError`. -/
def costFromMessage (message : Msg) : Except PyExc ℚ :=
  match pyGetD message "extra" (Value.dict []) with
  | Value.dict xs =>
    match (pyDictGet xs "cost").getD (Value.float 0) with
    | Value.int n => Except.ok (n : ℚ)
    | Value.float q => Except.ok q
    | _ => Except.error (PyExc.uncaught "TypeError" "unsupported operand type" "")
  | _ => Except.error (PyExc.uncaught "AttributeError" "object has no attribute get" "")

/-- `DefaultAgent.query` after its limit check (`default.py` lines 155-160):
call counting, the model invocation, stats update, cost accumulation, and
appending the response. -/
def query_after_check (o : Oracles) (st : AgentState) : Except PyExc Msg × AgentState :=
  let st := { st with n_calls := st.n_calls + 1 }
  let idx := st.g_started
  let st := { st with g_started := idx + 1 }
  match o.modelQuery idx st.messages with
  | Except.error e => (Except.error e, st)
  | Except.ok message =>
    let st := { st with g_completed := st.g_completed + 1 }
    match update_context_window_stats st message with
    | Except.error e => (Except.error e, st)
    | Except.ok (st, message) =>
      match costFromMessage message with
      | Except.error e => (Except.error e, st)
      | Except.ok c =>
        let st := { st with cost := st.cost + c }
        let (st, _) := add_messages o st [message]
        (Except.ok message, st)

/-- `DefaultAgent.query` (`default.py` lines 143-160): the limit check, then
lazy context-window resolution, then the rest of the query. -/
def query (o : Oracles) (st : AgentState) : Except PyExc Msg × AgentState :=
  if limitsHit st then
    (Except.error (PyExc.limitsExceeded [limitsExceededMessage]), st)
  else
    query_after_check o
      (if st.context_window_max.isNone then resolve_context_window_max o st else st)

/-- Python iteration over the value found at `actions` (a `for` over a
non-iterable raises `TypeError`; strings iterate per character, dicts over
their keys). -/
def iterItems : Value → Except PyExc (List Value)
  | Value.list xs => Except.ok xs
  | Value.str s => Except.ok (s.toList.map (fun c => Value.str (String.mk [c])))
  | Value.dict xs => Except.ok (xs.map (fun p => Value.str p.1))
  | _ => Except.error (PyExc.uncaught "TypeError" "object is not iterable" "")

/-- The list comprehension `[self.env.execute(action) for action in actions]`
(`default.py` line 164): one environment call per action, in order, stopping
at the first raising call.  Each call is recorded in `g_env_calls` at the
moment it is issued. -/
def runEnvCalls (o : Oracles) : AgentState → List Value → Except PyExc (List Value) × AgentState
  | st, [] => (Except.ok [], st)
  | st, a :: rest =>
    let idx := st.g_env_calls.length
    let st := { st with g_env_calls := st.g_env_calls ++ [a] }
    match o.envExecute idx a with
    | Except.error e => (Except.error e, st)
    | Except.ok obs =>
      match runEnvCalls o st rest with
      | (Except.error e, st') => (Except.error e, st')
      | (Except.ok obss, st') => (Except.ok (obs :: obss), st')

/-- `DefaultAgent.execute_actions` (`default.py` lines 162-165). -/
def execute_actions (o : Oracles) (st : AgentState) (message : Msg) :
    Except PyExc (List Msg) × AgentState :=
  match pyGetD message "extra" (Value.dict []) with
  | Value.dict exs =>
    match iterItems ((pyDictGet exs "actions").getD (Value.list [])) with
    | Except.error e => (Except.error e, st)
    | Except.ok actions =>
      match runEnvCalls o st actions with
      | (Except.error e, st) => (Except.error e, st)
      | (Except.ok outputs, st) =>
        let formatted := o.formatObs message outputs (get_template_vars o st [])
        let (st, ret) := add_messages o st formatted
        (Except.ok ret, st)
  | _ => (Except.error (PyExc.uncaught "AttributeError" "object has no attribute get" ""), st)

/-- `DefaultAgent.step` (`default.py` lines 139-141). -/
def stepAgent (o : Oracles) (st : AgentState) : Except PyExc (List Msg) × AgentState :=
  match query o st with
  | (Except.error e, st) => (Except.error e, st)
  | (Except.ok message, st) => execute_actions o st message

/-- `DefaultAgent.serialize` (`default.py` lines 222-243).  The agent-type
string and tool version are fixed data; the model/environment contributions
come from the oracles.  Raises when the last message's `extra` is a truthy
non-mapping (Python `last_extra.get` would). -/
def serializeData (o : Oracles) (st : AgentState) (extraDicts : List Value) :
    Except PyExc Value :=
  let last_message := st.messages.getLast?.getD []
  match pyGetD last_message "extra" (Value.dict []) with
  | Value.dict last_extra =>
    let info : Value := Value.dict
      [("model_stats", Value.dict
         [("instance_cost", Value.float st.cost), ("api_calls", Value.int st.n_calls)]),
       ("config", Value.dict
         [("agent", configDump st),
          ("agent_type", Value.str "minisweagent.agents.default.DefaultAgent")]),
       ("mini_version", Value.str o.miniVersion),
       ("exit_status", (pyDictGet last_extra "exit_status").getD (Value.str "")),
       ("submission", (pyDictGet last_extra "submission").getD (Value.str ""))]
    let agent_data : Value := Value.dict
      [("info", info),
       ("messages", Value.list (st.messages.map Value.dict)),
       ("trajectory_format", Value.str "mini-swe-agent-1.1")]
    Except.ok (recursiveMergeAll agent_data (o.modelSer :: o.envSer :: extraDicts))
  | _ => Except.error (PyExc.uncaught "AttributeError" "object has no attribute get" "")

/-- `DefaultAgent.serialize` as a state transformer: it reads but never
writes the agent state. -/
def serializeAgent (o : Oracles) (st : AgentState) (extraDicts : List Value) :
    Except PyExc Value × AgentState :=
  (serializeData o st extraDicts, st)

/-- `DefaultAgent.save` (`default.py` lines 245-253): serialize, then — when a
path is given — attempt the snapshot file write, whose failure propagates
(there is no handler around `path.write_text`).  Every snapshot built is
recorded in `g_saves`; every write attempt and its outcome in `g_snap_writes`. -/
def save (o : Oracles) (st : AgentState) (path : Option String) (extraDicts : List Value) :
    Except PyExc Value × AgentState :=
  match serializeData o st extraDicts with
  | Except.error e => (Except.error e, st)
  | Except.ok data =>
    let st := { st with g_saves := st.g_saves ++ [data] }
    match path with
    | none => (Except.ok data, st)
    | some _ =>
      let ok := o.snapOk st.g_snap_writes.length
      let st := { st with g_snap_writes := st.g_snap_writes ++ [ok] }
      if ok then (Except.ok data, st)
      else (Except.error (PyExc.uncaught "OSError" "snapshot write failed" ""), st)

/-- The outcome of `DefaultAgent.run`: a normal return value, a propagated
exception, or exhaustion of the loop fuel (the loop still running). -/
inductive RunResult where
  | ok (ret : Value) : RunResult
  | raised (e : PyExc) : RunResult
  | fuelExhausted : RunResult

/-- The tail of each loop iteration of `DefaultAgent.run` (`default.py`
lines 133-137): the `finally` block (whose `save` failure propagates,
replacing any in-flight exception), then the re-raise of a pending uncaught
exception, then the terminal-role check that breaks and returns the last
message's `extra` or continues (`recurse`). -/
def loopFinish (o : Oracles) (recurse : AgentState → RunResult × AgentState)
    (tryResult : Except PyExc Unit) (stA : AgentState) : RunResult × AgentState :=
  match save o stA stA.output_path [] with
  | (Except.error saveErr, stB) => (RunResult.raised saveErr, stB)
  | (Except.ok _, stB) =>
    match tryResult with
    | Except.error e => (RunResult.raised e, stB)
    | Except.ok _ =>
      match stB.messages.getLast? with
      | none =>
        (RunResult.raised (PyExc.uncaught "IndexError" "list index out of range" ""), stB)
      | some m =>
        match pyGet m "role" with
        | Value.str s =>
          if s == "exit" then (RunResult.ok (pyGetD m "extra" (Value.dict [])), stB)
          else recurse stB
        | _ => recurse stB

/-- The `while True` loop of `DefaultAgent.run` (`default.py` lines 125-137):
try one step; on a flow interrupt append its messages; on any other exception
record it via `handle_uncaught_exception` and mark it for re-raising; then run
the shared iteration tail `loopFinish`. -/
def runLoop (o : Oracles) : Nat → AgentState → RunResult × AgentState
  | 0, st => (RunResult.fuelExhausted, st)
  | Nat.succ fuel, st =>
    match stepAgent o st with
    | (Except.ok _, st1) => loopFinish o (runLoop o fuel) (Except.ok ()) st1
    | (Except.error e, st1) =>
      if e.isFlowInterrupt then
        loopFinish o (runLoop o fuel) (Except.ok ()) (add_messages o st1 e.messages).1
      else
        loopFinish o (runLoop o fuel) (Except.error e)
          (handle_uncaught_exception o st1 e).1

/-- `DefaultAgent.run` (`default.py` lines 116-137): record the task and
keyword arguments into the template variables, clear the messages, resolve the
context window, render and append the system and instance messages, then loop. -/
def runAgent (o : Oracles) (fuel : Nat) (st : AgentState) (task : String)
    (kwargs : List (String × Value)) : RunResult × AgentState :=
  let st := { st with
    extra_template_vars :=
      dictUpdate st.extra_template_vars (dictUpdate [("task", Value.str task)] kwargs),
    messages := [] }
  let st := resolve_context_window_max o st
  match o.render st.system_template (get_template_vars o st []) with
  | Except.error e => (RunResult.raised e, st)
  | Except.ok sys =>
    match o.render st.instance_template (get_template_vars o st []) with
    | Except.error e => (RunResult.raised e, st)
    | Except.ok inst =>
      let (st, _) := add_messages o st
        [formatMessage "system" sys [], formatMessage "user" inst []]
      runLoop o fuel st

/-! ## Concrete fixtures used to instantiate the theorems -/

/-- A terminal message as a model collaborator may produce it. -/
def exitMsgDone : Msg :=
  [("role", Value.str "exit"), ("content", Value.str "done"),
   ("extra", Value.dict
     [("exit_status", Value.str "Submitted"), ("submission", Value.str "diff")])]

/-- A benign collaborator family: the model immediately returns a terminal
message, the environment echoes its action, every file write succeeds, the
model name is unknown. -/
def baseOracles : Oracles where
  modelQuery := fun _ _ => Except.ok exitMsgDone
  formatObs := fun _ _ _ => []
  modelTV := []
  envTV := []
  modelSer := Value.dict []
  envSer := Value.dict []
  envExecute := fun _ a => Except.ok a
  render := fun t _ => Except.ok t
  liveOk := fun _ => true
  snapOk := fun _ => true
  modelName := none
  lookupCW := fun _ => none
  normName := fun s => s
  cwMapKeys := []
  miniVersion := "1.0.0"

/-- A freshly constructed agent state (`DefaultAgent.__init__` with
`step_limit = 0`, `cost_limit = 3.0`, no output or live path). -/
def baseState : AgentState where
  system_template := "sys"
  instance_template := "inst"
  step_limit := 0
  cost_limit := 3
  output_path := none
  live_path := none
  context_window_mode := "auto"
  messages := []
  extra_template_vars := []
  cost := 0
  n_calls := 0
  context_window_max := none
  context_window_prompt_tokens := none
  context_left_percent := none
  g_started := 0
  g_completed := 0
  g_env_calls := []
  g_live_writes := []
  g_snap_writes := []
  g_saves := []
  g_map_updates := []

/-- A response message reporting the given prompt-token usage. -/
def usageMsg (pt : Int) : Msg :=
  [("role", Value.str "assistant"), ("content", Value.str "hi"),
   ("usage", Value.dict [("prompt_tokens", Value.int pt)])]

/-- A response message whose `usage.prompt_tokens` is a string, not an integer. -/
def strUsageMsg : Msg :=
  [("role", Value.str "assistant"), ("content", Value.str "hi"),
   ("usage", Value.dict [("prompt_tokens", Value.str "250")])]

/-- An oracle family whose snapshot file writes always fail. -/
def failSnapOracles : Oracles :=
  { baseOracles with snapOk := fun _ => false }

/-- The expected observation sequence: one environment call per action, in
order, starting at call index `i`, all succeeding. -/
def envRunSpec (o : Oracles) : Nat → List Value → Option (List Value)
  | _, [] => some []
  | i, a :: rest =>
    match o.envExecute i a with
    | Except.ok obs => (envRunSpec o (i + 1) rest).map (obs :: ·)
    | Except.error _ => none

/-- Whether a run outcome is a normal return. -/
def RunResult.isOk : RunResult → Bool
  | RunResult.ok _ => true
  | _ => false

/-- A collaborator family whose model raises the flow interrupt carrying a
terminal message on every query. -/
def interruptOracles : Oracles :=
  { baseOracles with
      modelQuery := fun _ _ => Except.error (PyExc.interruptAgentFlow [exitMsgDone]) }

/-- A collaborator family whose model raises a runtime error on every query. -/
def errorOracles : Oracles :=
  { baseOracles with
      modelQuery := fun _ _ => Except.error (PyExc.uncaught "RuntimeError" "boom" "tb0") }

/-- A message is exit-well-formed when, if its role is `"exit"`, its `extra`
is a mapping carrying at least `exit_status` and `submission` (the spec's
data-model constraint on terminal messages, section 3). -/
def MsgExitWF (m : Msg) : Prop :=
  pyGet m "role" = Value.str "exit" →
    ∃ xs, pyGet m "extra" = Value.dict xs ∧
      (pyDictGet xs "exit_status").isSome = true ∧
      (pyDictGet xs "submission").isSome = true

/-- Every message carried by an exception is exit-well-formed. -/
def ExcWF (e : PyExc) : Prop := ∀ m ∈ e.messages, MsgExitWF m

/-- The spec's data-model constraint imposed on the collaborators: every
message they can inject into the conversation is exit-well-formed. -/
def OracleExitWF (o : Oracles) : Prop :=
  (∀ i ms m, o.modelQuery i ms = Except.ok m → MsgExitWF m) ∧
  (∀ i ms e, o.modelQuery i ms = Except.error e → ExcWF e) ∧
  (∀ i a e, o.envExecute i a = Except.error e → ExcWF e) ∧
  (∀ msg outs tv m, m ∈ o.formatObs msg outs tv → MsgExitWF m) ∧
  (∀ tpl v e, o.render tpl v = Except.error e → ExcWF e)

/-- All messages of a state are exit-well-formed. -/
def InvWF (st : AgentState) : Prop := ∀ m ∈ st.messages, MsgExitWF m

/-! ## C4: the remaining-context percentage formula -/

/-- The formula the spec states for the remaining-context percentage, written
from the spec's words:
`clamp(round(100 * (1 - prompt_tokens / context_window_max)), 0, 100)`. -/
def specLeftPercent (pt cw : Int) : Int :=
  max 0 (min 100 (round (100 * (1 - ((pt : ℚ) / (cw : ℚ))))))

/-- C4 counterexample: with `context_window_max = 1000` and a response
reporting `prompt_tokens = 333`, the code sets `context_left_percent` to `66`
(truncation toward zero of `66.7`), while the claimed formula
`clamp(round(100 * (1 - 333/1000)), 0, 100)` equals `67`. -/
theorem C4_counterexample :
    update_context_window_stats { baseState with context_window_max := some 1000 }
        (usageMsg 333)
      = Except.ok
          ({ baseState with
               context_window_max := some 1000,
               context_window_prompt_tokens := some 333,
               context_left_percent := some 66 },
           dictSet (usageMsg 333) "context_left_percent" (Value.int 66))
    ∧ specLeftPercent 333 1000 = 67 := by
  constructor
  · unfold update_context_window_stats
    rw [show extract_prompt_tokens (usageMsg 333) = Except.ok (some 333) from rfl]
    norm_num [pyTrunc]
  · norm_num [specLeftPercent, round_eq]

/-- C4 (amended): whenever `context_window_max` is known and non-zero and an
integer prompt-token count is extracted, the tracker sets
`context_left_percent` on both the state and the message to
`clamp(trunc(100 * (1 - prompt_tokens / context_window_max)), 0, 100)`, where
`trunc` is truncation toward zero (Python `int(...)`), not rounding. -/
theorem C4_left_percent_formula (st : AgentState) (message : Msg) (pt cw : Int)
    (hex : extract_prompt_tokens message = Except.ok (some pt))
    (hcw : st.context_window_max = some cw) (hc : cw ≠ 0) :
    update_context_window_stats st message =
      Except.ok
        ({ st with
             context_window_prompt_tokens := some pt,
             context_left_percent :=
               some (max 0 (min 100 (pyTrunc (100 * (1 - ((pt : ℚ) / (cw : ℚ))))))) },
         dictSet message "context_left_percent"
           (Value.int (max 0 (min 100 (pyTrunc (100 * (1 - ((pt : ℚ) / (cw : ℚ))))))))) := by
  unfold update_context_window_stats
  rw [hex]
  simp only [hcw]
  simp [hc]

/-- C4 witness: at `context_window_max = 1000`, `prompt_tokens = 250`, the
amended formula yields `75`, as the spec's example requires. -/
theorem C4_witness :
    update_context_window_stats { baseState with context_window_max := some 1000 }
        (usageMsg 250) =
      Except.ok
        ({ baseState with
             context_window_max := some 1000,
             context_window_prompt_tokens := some 250,
             context_left_percent := some 75 },
         dictSet (usageMsg 250) "context_left_percent" (Value.int 75)) := by
  have h := C4_left_percent_formula
    { baseState with context_window_max := some 1000 } (usageMsg 250) 250 1000
    rfl rfl (by decide)
  rw [h]
  norm_num [pyTrunc]

/-! ## C10: prompt-token extraction -/

/-- C10: prompt-token extraction returns an integer exactly when the usage
resolved by the fixed precedence chain (`resolveUsage`) is a mapping whose
`prompt_tokens` entry is an integer; when the resolved usage is a mapping with
`prompt_tokens` missing or non-integer, extraction returns nothing and the
context-window stats update leaves the state and message unchanged. -/
theorem C10_extraction_int_only :
    (∀ (m : Msg) (n : Int), extract_prompt_tokens m = Except.ok (some n) →
      ∃ uxs, resolveUsage m = Except.ok (Value.dict uxs) ∧
        pyDictGet uxs "prompt_tokens" = some (Value.int n)) ∧
    (∀ (m : Msg) (uxs : List (String × Value)),
      resolveUsage m = Except.ok (Value.dict uxs) →
      (∀ n : Int, pyDictGet uxs "prompt_tokens" ≠ some (Value.int n)) →
      extract_prompt_tokens m = Except.ok none ∧
      ∀ st : AgentState, update_context_window_stats st m = Except.ok (st, m)) := by
  constructor
  · intro m n h
    unfold extract_prompt_tokens at h
    cases hr : resolveUsage m with
    | error e => rw [hr] at h; cases h
    | ok u =>
      rw [hr] at h
      cases u <;> simp only [] at h <;> try cases h
      case dict uxs =>
        refine ⟨uxs, rfl, ?_⟩
        cases hg : pyDictGet uxs "prompt_tokens" with
        | none => rw [hg] at h; simp [Option.getD] at h
        | some v =>
          cases v <;> rw [hg] at h <;> simp [Option.getD] at h
          case int k => simp [h]
  · intro m uxs hr hne
    have hex : extract_prompt_tokens m = Except.ok none := by
      unfold extract_prompt_tokens
      rw [hr]
      show (match (pyDictGet uxs "prompt_tokens").getD Value.null with
            | Value.int n => Except.ok (some n)
            | _ => Except.ok none) = Except.ok none
      cases hg : pyDictGet uxs "prompt_tokens" with
      | none => rfl
      | some v => cases v <;> first | rfl | exact absurd hg (hne _)
    refine ⟨hex, fun st => ?_⟩
    unfold update_context_window_stats
    rw [hex]

/-- C10 witness: a usage mapping with an integer `prompt_tokens` is
extracted; a usage mapping with a string `prompt_tokens` yields nothing and
leaves the stats update a no-op. -/
theorem C10_witness :
    (∃ uxs, resolveUsage (usageMsg 250) = Except.ok (Value.dict uxs) ∧
      pyDictGet uxs "prompt_tokens" = some (Value.int 250)) ∧
    extract_prompt_tokens strUsageMsg = Except.ok none ∧
    update_context_window_stats baseState strUsageMsg =
      Except.ok (baseState, strUsageMsg) := by
  refine ⟨C10_extraction_int_only.1 (usageMsg 250) 250 rfl, ?_⟩
  have h := C10_extraction_int_only.2 strUsageMsg
    [("prompt_tokens", Value.str "250")] rfl
    (fun n hn => by
      rw [show pyDictGet [("prompt_tokens", Value.str "250")] "prompt_tokens"
          = some (Value.str "250") from rfl] at hn
      cases hn)
  exact ⟨h.1, h.2 baseState⟩

/-! ## Error-classification helper lemmas -/

/-- `limitsHit` decides exactly the limit condition of the spec. -/
theorem limitsHit_iff (st : AgentState) :
    limitsHit st = true ↔
      ((0 < st.step_limit ∧ st.step_limit ≤ st.n_calls) ∨
       (0 < st.cost_limit ∧ st.cost_limit ≤ st.cost)) := by
  simp [limitsHit]

/-- Usage resolution can only fail with an `uncaught` exception. -/
theorem resolveUsage_error_uncaught (m : Msg) (e : PyExc)
    (h : resolveUsage m = Except.error e) : ∃ n t tb, e = PyExc.uncaught n t tb := by
  unfold resolveUsage at h
  split at h
  · cases h
  · exact ⟨_, _, _, (Except.error.inj h).symm⟩

/-- Prompt-token extraction can only fail with an `uncaught` exception. -/
theorem extract_prompt_tokens_error_uncaught (m : Msg) (e : PyExc)
    (h : extract_prompt_tokens m = Except.error e) :
    ∃ n t tb, e = PyExc.uncaught n t tb := by
  unfold extract_prompt_tokens at h
  revert h
  cases hr : resolveUsage m with
  | error e' =>
    intro h
    simp only [Except.error.injEq] at h
    cases h
    exact resolveUsage_error_uncaught m _ hr
  | ok u =>
    cases u <;> intro h <;> try simp at h
    case dict uxs =>
      revert h
      cases (pyDictGet uxs "prompt_tokens").getD Value.null <;> intro h <;> simp at h

/-- The context-window stats update can only fail with an `uncaught` exception. -/
theorem update_context_window_stats_error_uncaught (st : AgentState) (m : Msg) (e : PyExc)
    (h : update_context_window_stats st m = Except.error e) :
    ∃ n t tb, e = PyExc.uncaught n t tb := by
  unfold update_context_window_stats at h
  revert h
  cases hex : extract_prompt_tokens m with
  | error e' =>
    intro h
    simp only [Except.error.injEq] at h
    cases h
    exact extract_prompt_tokens_error_uncaught m _ hex
  | ok o =>
    cases o with
    | none => intro h; simp at h
    | some pt =>
      dsimp only
      cases st.context_window_max with
      | none => intro h; simp at h
      | some cw =>
        dsimp only
        by_cases h0 : (cw == 0) = true
        · rw [if_pos h0]; intro h; simp at h
        · rw [if_neg h0]; intro h; simp at h

/-- Cost extraction can only fail with an `uncaught` exception. -/
theorem costFromMessage_error_uncaught (m : Msg) (e : PyExc)
    (h : costFromMessage m = Except.error e) : ∃ n t tb, e = PyExc.uncaught n t tb := by
  unfold costFromMessage at h
  split at h
  · split at h <;>
      first
        | (simp only [Except.error.injEq] at h; exact ⟨_, _, _, h.symm⟩)
        | simp at h
  · simp only [Except.error.injEq] at h
    exact ⟨_, _, _, h.symm⟩

/-- Any error of the post-check part of `query` is an error raised by the
model collaborator itself or an `uncaught` exception. -/
theorem query_after_check_error_cases (o : Oracles) (st : AgentState) (e : PyExc)
    (st' : AgentState) (h : query_after_check o st = (Except.error e, st')) :
    (∃ i ms, o.modelQuery i ms = Except.error e) ∨
    (∃ n t tb, e = PyExc.uncaught n t tb) := by
  unfold query_after_check at h
  dsimp only at h
  split at h
  case h_1 e' heq =>
    rw [Prod.mk.injEq] at h
    obtain ⟨h1, -⟩ := h
    cases h1
    exact Or.inl ⟨_, _, heq⟩
  case h_2 message heq =>
    split at h
    case h_1 e' hequ =>
      rw [Prod.mk.injEq] at h
      obtain ⟨h1, -⟩ := h
      cases h1
      exact Or.inr (update_context_window_stats_error_uncaught _ _ _ hequ)
    case h_2 stM msgM hequ =>
      split at h
      case h_1 e' heqc =>
        rw [Prod.mk.injEq] at h
        obtain ⟨h1, -⟩ := h
        cases h1
        exact Or.inr (costFromMessage_error_uncaught _ _ heqc)
      case h_2 c heqc =>
        rw [Prod.mk.injEq] at h
        obtain ⟨h1, -⟩ := h
        cases h1

/-- Any error of `query` is the limit signal (with the limit condition true at
entry), an error raised by the model collaborator itself, or an `uncaught`
exception. -/
theorem query_error_cases (o : Oracles) (st : AgentState) (e : PyExc) (st' : AgentState)
    (h : query o st = (Except.error e, st')) :
    (e = PyExc.limitsExceeded [limitsExceededMessage] ∧ limitsHit st = true ∧ st' = st) ∨
    (∃ i ms, o.modelQuery i ms = Except.error e) ∨
    (∃ n t tb, e = PyExc.uncaught n t tb) := by
  unfold query at h
  split at h
  case isTrue hl =>
    rw [Prod.mk.injEq] at h
    obtain ⟨h1, h2⟩ := h
    exact Or.inl ⟨(Except.error.inj h1).symm, hl, h2.symm⟩
  case isFalse hl =>
    exact Or.inr (query_after_check_error_cases o _ e st' h)

/-! ## C2: the limit check in `query` -/

/-- C2: before issuing a model query, `query` raises `LimitsExceeded` if and
only if `(step_limit > 0 and n_calls ≥ step_limit) or (cost_limit > 0 and
cost ≥ cost_limit)` (assuming the model collaborator does not itself raise the
agent's own limits signal); the raised failure carries the synthetic terminal
message with role `"exit"`, `exit_status "LimitsExceeded"` and empty
submission, and the check mutates no run state. -/
theorem C2_limits_exceeded_iff (o : Oracles) (st : AgentState)
    (hmq : ∀ (i : Nat) (ms : List Msg) (msgs : List Msg),
      o.modelQuery i ms ≠ Except.error (PyExc.limitsExceeded msgs)) :
    (((0 < st.step_limit ∧ st.step_limit ≤ st.n_calls) ∨
      (0 < st.cost_limit ∧ st.cost_limit ≤ st.cost)) →
        query o st = (Except.error (PyExc.limitsExceeded [limitsExceededMessage]), st))
    ∧ (¬((0 < st.step_limit ∧ st.step_limit ≤ st.n_calls) ∨
      (0 < st.cost_limit ∧ st.cost_limit ≤ st.cost)) →
        ∀ msgs : List Msg, (query o st).1 ≠ Except.error (PyExc.limitsExceeded msgs))
    ∧ pyGet limitsExceededMessage "role" = Value.str "exit"
    ∧ pyGet limitsExceededMessage "extra" = Value.dict
        [("exit_status", Value.str "LimitsExceeded"), ("submission", Value.str "")] := by
  refine ⟨?_, ?_, rfl, rfl⟩
  · intro hcond
    unfold query
    rw [if_pos ((limitsHit_iff st).mpr hcond)]
  · intro hcond msgs hq
    obtain ⟨e, st', hq'⟩ : ∃ e st', query o st = (Except.error e, st') := by
      cases hqq : query o st with
      | mk r s =>
        rw [hqq] at hq
        cases r with
        | error e => exact ⟨e, s, rfl⟩
        | ok v => cases hq
    have he : e = PyExc.limitsExceeded msgs := by
      rw [hq'] at hq
      exact (Except.error.inj hq)
    rcases query_error_cases o st e st' hq' with ⟨_, hl, _⟩ | ⟨i, ms, hm⟩ | ⟨n, t, tb, hu⟩
    · exact hcond ((limitsHit_iff st).mp hl)
    · exact hmq i ms msgs (he ▸ hm)
    · subst he; cases hu

/-- C2 witness: at a state whose call count has reached a positive step
limit, `query` raises exactly the synthetic limits message and leaves the
state untouched; at the fresh state with limits satisfiable, it does not raise
the limits signal. -/
theorem C2_witness :
    query baseOracles { baseState with step_limit := 2, n_calls := 2 } =
      (Except.error (PyExc.limitsExceeded [limitsExceededMessage]),
       { baseState with step_limit := 2, n_calls := 2 })
    ∧ ∀ msgs : List Msg,
        (query baseOracles baseState).1 ≠ Except.error (PyExc.limitsExceeded msgs) := by
  have hmq : ∀ (i : Nat) (ms : List Msg) (msgs : List Msg),
      baseOracles.modelQuery i ms ≠ Except.error (PyExc.limitsExceeded msgs) := by
    intro i ms msgs h
    cases h
  constructor
  · exact (C2_limits_exceeded_iff baseOracles
      { baseState with step_limit := 2, n_calls := 2 } hmq).1 (by norm_num)
  · exact (C2_limits_exceeded_iff baseOracles baseState hmq).2.1 (by norm_num [baseState])

/-! ## C9: serialize is read-only and idempotent -/

/-- C9: `serialize` reads but never writes the agent state, so calling it
twice with the same extra arguments and no intervening state change yields
identical snapshots. -/
theorem C9_serialize_idempotent (o : Oracles) (st : AgentState) (extraDicts : List Value) :
    (serializeAgent o st extraDicts).2 = st ∧
    (serializeAgent o (serializeAgent o st extraDicts).2 extraDicts).1 =
      (serializeAgent o st extraDicts).1 :=
  ⟨rfl, rfl⟩

/-! ## C5: persistence failures -/

/-- C5 (amended): a live-trajectory write failure is recovered locally —
`add_messages` extends the in-memory sequence and returns its messages for
every write outcome, raising nothing; `save` returns the in-memory snapshot
when no path is given or the snapshot write succeeds, but a snapshot write
failure propagates out of `save` (there is no handler around the write). -/
theorem C5_persistence_behaviour (o : Oracles) (st : AgentState) (msgs : List Msg)
    (path : String) (extraDicts : List Value) (d : Value)
    (hd : serializeData o st extraDicts = Except.ok d) :
    ((add_messages o st msgs).1.messages = st.messages ++ msgs ∧
     (add_messages o st msgs).2 = msgs) ∧
    (save o st none extraDicts).1 = Except.ok d ∧
    (o.snapOk st.g_snap_writes.length = true →
      (save o st (some path) extraDicts).1 = Except.ok d) ∧
    (o.snapOk st.g_snap_writes.length = false →
      (save o st (some path) extraDicts).1 =
        Except.error (PyExc.uncaught "OSError" "snapshot write failed" "")) := by
  refine ⟨?_, ?_, ?_, ?_⟩
  · unfold add_messages
    dsimp only
    cases st.live_path <;> exact ⟨rfl, rfl⟩
  · simp [save, hd]
  · intro hw; simp [save, hd, hw]
  · intro hw; simp [save, hd, hw]

/-- C5 counterexample: when the snapshot file write fails, `save` does not
return the in-memory snapshot — it propagates the failure, so a snapshot write
failure is not recovered locally. -/
theorem C5_counterexample :
    (save failSnapOracles { baseState with messages := [exitMsgDone] }
        (some "traj.json") []).1 =
      Except.error (PyExc.uncaught "OSError" "snapshot write failed" "") := rfl

/-- C5 witness: with every write succeeding, `add_messages` extends the
sequence and `save` returns a snapshot; with the write failing, `save` raises. -/
theorem C5_witness :
    (add_messages baseOracles baseState [exitMsgDone]).1.messages = [exitMsgDone] ∧
    (∃ d, (save baseOracles baseState (some "traj.json") []).1 = Except.ok d) ∧
    (save failSnapOracles baseState (some "traj.json") []).1 =
      Except.error (PyExc.uncaught "OSError" "snapshot write failed" "") := by
  obtain ⟨d, hd⟩ : ∃ d, serializeData baseOracles baseState [] = Except.ok d := ⟨_, rfl⟩
  obtain ⟨hadd, -, hsome, -⟩ :=
    C5_persistence_behaviour baseOracles baseState [exitMsgDone] "traj.json" [] d hd
  obtain ⟨d', hd'⟩ : ∃ d', serializeData failSnapOracles baseState [] = Except.ok d' :=
    ⟨_, rfl⟩
  obtain ⟨-, -, -, hfail⟩ :=
    C5_persistence_behaviour failSnapOracles baseState [exitMsgDone] "traj.json" [] d' hd'
  exact ⟨by simpa using hadd.1, ⟨d, hsome rfl⟩, hfail rfl⟩

/-! ## C8: action execution order -/

/-- `add_messages` always returns exactly the messages passed to it. -/
theorem add_messages_snd (o : Oracles) (st : AgentState) (msgs : List Msg) :
    (add_messages o st msgs).2 = msgs := by
  unfold add_messages
  dsimp only
  cases st.live_path <;> rfl

/-- When every environment call succeeds, `runEnvCalls` issues exactly one
call per action in the declared order and collects the observations in the
same order. -/
theorem runEnvCalls_ok (o : Oracles) (acts : List Value) :
    ∀ (st : AgentState) (outs : List Value),
      envRunSpec o st.g_env_calls.length acts = some outs →
      runEnvCalls o st acts =
        (Except.ok outs, { st with g_env_calls := st.g_env_calls ++ acts }) := by
  induction acts with
  | nil =>
    intro st outs h
    unfold envRunSpec at h
    cases h
    simp [runEnvCalls]
  | cons a rest ih =>
    intro st outs h
    unfold envRunSpec at h
    revert h
    cases he : o.envExecute st.g_env_calls.length a with
    | error e => intro h; cases h
    | ok obs =>
      cases hrest : envRunSpec o (st.g_env_calls.length + 1) rest with
      | none => intro h; simp [hrest] at h
      | some outsRest =>
        intro h
        simp only [hrest, Option.map_some] at h
        cases h
        have ih' := ih { st with g_env_calls := st.g_env_calls ++ [a] } outsRest
          (by simpa using hrest)
        unfold runEnvCalls
        dsimp only
        rw [he]
        dsimp only
        rw [ih']
        simp

/-- C8: when the response's `extra.actions` is a list and every environment
call succeeds, `execute_actions` invokes the environment once per action in
the declared order (recorded in `g_env_calls`), collects one observation per
action in order, and appends exactly the formatted observation messages. -/
theorem C8_execute_actions_order (o : Oracles) (st : AgentState) (message : Msg)
    (exs : List (String × Value)) (acts outs : List Value)
    (hextra : pyGetD message "extra" (Value.dict []) = Value.dict exs)
    (hacts : (pyDictGet exs "actions").getD (Value.list []) = Value.list acts)
    (houts : envRunSpec o st.g_env_calls.length acts = some outs) :
    execute_actions o st message =
      (Except.ok (o.formatObs message outs
          (get_template_vars o { st with g_env_calls := st.g_env_calls ++ acts } [])),
        (add_messages o { st with g_env_calls := st.g_env_calls ++ acts }
          (o.formatObs message outs
            (get_template_vars o { st with g_env_calls := st.g_env_calls ++ acts } []))).1)
    ∧ (execute_actions o st message).2.g_env_calls = st.g_env_calls ++ acts
    ∧ (execute_actions o st message).2.messages =
        st.messages ++ o.formatObs message outs
          (get_template_vars o { st with g_env_calls := st.g_env_calls ++ acts } []) := by
  have hmain : execute_actions o st message =
      (Except.ok (o.formatObs message outs
          (get_template_vars o { st with g_env_calls := st.g_env_calls ++ acts } [])),
        (add_messages o { st with g_env_calls := st.g_env_calls ++ acts }
          (o.formatObs message outs
            (get_template_vars o { st with g_env_calls := st.g_env_calls ++ acts } []))).1) := by
    unfold execute_actions
    rw [hextra]
    dsimp only
    rw [hacts]
    rw [show iterItems (Value.list acts) = Except.ok acts from rfl]
    dsimp only
    rw [runEnvCalls_ok o acts st outs houts]
    dsimp only
    rw [add_messages_snd]
  refine ⟨hmain, ?_, ?_⟩
  · rw [hmain]
    unfold add_messages
    dsimp only
    cases st.live_path <;> rfl
  · rw [hmain]
    unfold add_messages
    dsimp only
    cases st.live_path <;> rfl

/-- C8 witness: a message declaring two actions produces two environment
calls in order with two observations; a message declaring no actions produces
zero environment calls. -/
theorem C8_witness :
    (execute_actions baseOracles baseState
        [("role", Value.str "assistant"),
         ("extra", Value.dict [("actions", Value.list [Value.str "a1", Value.str "a2"])])]).2.g_env_calls
      = [Value.str "a1", Value.str "a2"] ∧
    (execute_actions baseOracles baseState
        [("role", Value.str "assistant"), ("extra", Value.dict [])]).2.g_env_calls = [] := by
  constructor
  · have h := C8_execute_actions_order baseOracles baseState
      [("role", Value.str "assistant"),
       ("extra", Value.dict [("actions", Value.list [Value.str "a1", Value.str "a2"])])]
      [("actions", Value.list [Value.str "a1", Value.str "a2"])]
      [Value.str "a1", Value.str "a2"] [Value.str "a1", Value.str "a2"]
      rfl rfl rfl
    simpa using h.2.1
  · have h := C8_execute_actions_order baseOracles baseState
      [("role", Value.str "assistant"), ("extra", Value.dict [])]
      [] [] [] rfl rfl rfl
    simpa using h.2.1

/-! ## Effect lemmas for the run-level claims -/

/-- What `add_messages` does to the state: it appends the messages and
(at most) records a live-log write attempt; every other field is unchanged. -/
theorem add_messages_effects (o : Oracles) (st : AgentState) (msgs : List Msg) :
    (add_messages o st msgs).1.messages = st.messages ++ msgs ∧
    (add_messages o st msgs).1.cost = st.cost ∧
    (add_messages o st msgs).1.n_calls = st.n_calls ∧
    (add_messages o st msgs).1.g_started = st.g_started ∧
    (add_messages o st msgs).1.g_completed = st.g_completed ∧
    (add_messages o st msgs).1.g_saves = st.g_saves ∧
    (add_messages o st msgs).1.context_window_max = st.context_window_max ∧
    (add_messages o st msgs).1.context_window_prompt_tokens = st.context_window_prompt_tokens ∧
    (add_messages o st msgs).1.context_left_percent = st.context_left_percent ∧
    (add_messages o st msgs).1.output_path = st.output_path ∧
    (add_messages o st msgs).1.step_limit = st.step_limit ∧
    (add_messages o st msgs).1.cost_limit = st.cost_limit := by
  unfold add_messages
  dsimp only
  cases st.live_path <;> exact ⟨rfl, rfl, rfl, rfl, rfl, rfl, rfl, rfl, rfl, rfl, rfl, rfl⟩

/-- What `save` does to the state: it appends ghost records of the snapshot
and write attempt; every agent-visible field is unchanged. -/
theorem save_effects (o : Oracles) (st : AgentState) (path : Option String)
    (ex : List Value) :
    (save o st path ex).2.messages = st.messages ∧
    (save o st path ex).2.cost = st.cost ∧
    (save o st path ex).2.n_calls = st.n_calls ∧
    (save o st path ex).2.g_started = st.g_started ∧
    (save o st path ex).2.g_completed = st.g_completed ∧
    (save o st path ex).2.g_env_calls = st.g_env_calls ∧
    (save o st path ex).2.context_window_max = st.context_window_max ∧
    (save o st path ex).2.context_window_prompt_tokens = st.context_window_prompt_tokens ∧
    (save o st path ex).2.context_left_percent = st.context_left_percent ∧
    (save o st path ex).2.output_path = st.output_path ∧
    (save o st path ex).2.step_limit = st.step_limit ∧
    (save o st path ex).2.cost_limit = st.cost_limit := by
  unfold save
  split
  · exact ⟨rfl, rfl, rfl, rfl, rfl, rfl, rfl, rfl, rfl, rfl, rfl, rfl⟩
  · dsimp only
    split
    · exact ⟨rfl, rfl, rfl, rfl, rfl, rfl, rfl, rfl, rfl, rfl, rfl, rfl⟩
    · split <;> exact ⟨rfl, rfl, rfl, rfl, rfl, rfl, rfl, rfl, rfl, rfl, rfl, rfl⟩

/-- `resolve_context_window_max` touches only `context_window_max` and the
ghost map-update record. -/
theorem resolve_cw_effects (o : Oracles) (st : AgentState) :
    (resolve_context_window_max o st).messages = st.messages ∧
    (resolve_context_window_max o st).cost = st.cost ∧
    (resolve_context_window_max o st).n_calls = st.n_calls ∧
    (resolve_context_window_max o st).g_started = st.g_started ∧
    (resolve_context_window_max o st).g_completed = st.g_completed ∧
    (resolve_context_window_max o st).g_env_calls = st.g_env_calls ∧
    (resolve_context_window_max o st).g_saves = st.g_saves ∧
    (resolve_context_window_max o st).context_window_prompt_tokens =
      st.context_window_prompt_tokens ∧
    (resolve_context_window_max o st).context_left_percent = st.context_left_percent ∧
    (resolve_context_window_max o st).output_path = st.output_path ∧
    (resolve_context_window_max o st).step_limit = st.step_limit ∧
    (resolve_context_window_max o st).cost_limit = st.cost_limit ∧
    (resolve_context_window_max o st).live_path = st.live_path ∧
    (resolve_context_window_max o st).extra_template_vars = st.extra_template_vars ∧
    (resolve_context_window_max o st).system_template = st.system_template ∧
    (resolve_context_window_max o st).instance_template = st.instance_template ∧
    (resolve_context_window_max o st).g_live_writes = st.g_live_writes ∧
    (resolve_context_window_max o st).g_snap_writes = st.g_snap_writes := by
  unfold resolve_context_window_max
  split
  · exact ⟨rfl, rfl, rfl, rfl, rfl, rfl, rfl, rfl, rfl, rfl, rfl, rfl, rfl, rfl, rfl, rfl,
      rfl, rfl⟩
  · split
    · exact ⟨rfl, rfl, rfl, rfl, rfl, rfl, rfl, rfl, rfl, rfl, rfl, rfl, rfl, rfl, rfl, rfl,
        rfl, rfl⟩
    · try dsimp only
      split
      · exact ⟨rfl, rfl, rfl, rfl, rfl, rfl, rfl, rfl, rfl, rfl, rfl, rfl, rfl, rfl, rfl,
          rfl, rfl, rfl⟩
      · split
        · exact ⟨rfl, rfl, rfl, rfl, rfl, rfl, rfl, rfl, rfl, rfl, rfl, rfl, rfl, rfl, rfl,
            rfl, rfl, rfl⟩
        · try dsimp only
          split <;>
            exact ⟨rfl, rfl, rfl, rfl, rfl, rfl, rfl, rfl, rfl, rfl, rfl, rfl, rfl, rfl,
              rfl, rfl, rfl, rfl⟩

/-- When every lookup into the context-window map misses, resolution is the
identity on the state. -/
theorem resolve_cw_lookup_none (o : Oracles) (st : AgentState)
    (hlk : ∀ s, o.lookupCW s = none) :
    resolve_context_window_max o st = st := by
  unfold resolve_context_window_max
  split
  · rfl
  · split
    · rfl
    · try dsimp only
      split
      · rfl
      · rw [hlk]
        try dsimp only
        split <;> first | rfl | simp_all

/-- Looking a key up after setting a different key is unchanged. -/
theorem pyDictGet_dictSet_ne (d : List (String × Value)) (k k' : String) (v : Value)
    (h : k' ≠ k) : pyDictGet (dictSet d k v) k' = pyDictGet d k' := by
  have hkk' : (k == k') = false := by simpa using Ne.symm h
  induction d with
  | nil => simp [dictSet, pyDictGet, List.find?, hkk']
  | cons kv t ih =>
    cases hk : (kv.1 == k) with
    | false =>
      simp only [dictSet, hk, Bool.false_eq_true, if_false]
      simp only [pyDictGet, List.find?] at ih ⊢
      cases hk' : (kv.1 == k') with
      | false => simpa [hk'] using ih
      | true => simp [hk']
    | true =>
      simp only [dictSet, hk, if_true]
      have h1 : (kv.1 == k') = false := by
        have h2 : kv.1 = k := by simpa using hk
        rw [h2]; exact hkk'
      simp [pyDictGet, List.find?, hkk', h1]

/-- What a successful `_update_context_window_stats` does: only the two
budget fields change (the remaining-context field only when a context-window
maximum is known), plus at most the one message annotation. -/
theorem update_stats_ok_effects (st : AgentState) (m : Msg) (st' : AgentState) (m' : Msg)
    (h : update_context_window_stats st m = Except.ok (st', m')) :
    st'.messages = st.messages ∧ st'.cost = st.cost ∧ st'.n_calls = st.n_calls ∧
    st'.g_started = st.g_started ∧ st'.g_completed = st.g_completed ∧
    st'.g_env_calls = st.g_env_calls ∧ st'.g_saves = st.g_saves ∧
    st'.context_window_max = st.context_window_max ∧
    st'.output_path = st.output_path ∧ st'.live_path = st.live_path ∧
    st'.step_limit = st.step_limit ∧ st'.cost_limit = st.cost_limit ∧
    (st.context_window_max = none → st'.context_left_percent = st.context_left_percent) ∧
    (m' = m ∨ ∃ v : Int, m' = dictSet m "context_left_percent" (Value.int v)) := by
  unfold update_context_window_stats at h
  split at h
  · cases h
  · cases h
    exact ⟨rfl, rfl, rfl, rfl, rfl, rfl, rfl, rfl, rfl, rfl, rfl, rfl, fun _ => rfl,
      Or.inl rfl⟩
  · dsimp only at h
    split at h
    · cases h
      exact ⟨rfl, rfl, rfl, rfl, rfl, rfl, rfl, rfl, rfl, rfl, rfl, rfl, fun _ => rfl,
        Or.inl rfl⟩
    · rename_i cw hcw
      split at h
      · cases h
        exact ⟨rfl, rfl, rfl, rfl, rfl, rfl, rfl, rfl, rfl, rfl, rfl, rfl, fun _ => rfl,
          Or.inl rfl⟩
      · cases h
        refine ⟨rfl, rfl, rfl, rfl, rfl, rfl, rfl, rfl, rfl, rfl, rfl, rfl, ?_, Or.inr ⟨_, rfl⟩⟩
        intro hn
        rw [hn] at hcw
        cases hcw

/-- What a successful post-check `query` does: the call counters advance by
one, the reported cost (zero when absent) is added, and exactly the (possibly
annotated) response message is appended. -/
theorem query_after_check_ok_effects (o : Oracles) (st : AgentState) (m : Msg)
    (st' : AgentState) (h : query_after_check o st = (Except.ok m, st')) :
    st'.n_calls = st.n_calls + 1 ∧
    st'.g_started = st.g_started + 1 ∧
    st'.g_completed = st.g_completed + 1 ∧
    st'.g_env_calls = st.g_env_calls ∧
    st'.context_window_max = st.context_window_max ∧
    st'.output_path = st.output_path ∧
    st'.step_limit = st.step_limit ∧
    st'.cost_limit = st.cost_limit ∧
    (st.context_window_max = none → st'.context_left_percent = st.context_left_percent) ∧
    (∃ c, costFromMessage m = Except.ok c ∧ st'.cost = st.cost + c) ∧
    st'.messages = st.messages ++ [m] ∧
    (∃ m₀, o.modelQuery st.g_started st.messages = Except.ok m₀ ∧
      (m = m₀ ∨ ∃ v : Int, m = dictSet m₀ "context_left_percent" (Value.int v))) := by
  unfold query_after_check at h
  dsimp only at h
  split at h
  · rw [Prod.mk.injEq] at h
    obtain ⟨h1, -⟩ := h
    cases h1
  · rename_i m₀ hm₀
    split at h
    · rw [Prod.mk.injEq] at h
      obtain ⟨h1, -⟩ := h
      cases h1
    · rename_i stM mM hupd
      split at h
      · rw [Prod.mk.injEq] at h
        obtain ⟨h1, -⟩ := h
        cases h1
      · rename_i c hc
        rw [Prod.mk.injEq] at h
        obtain ⟨h1, h2⟩ := h
        cases h1
        obtain ⟨hmsg, hcost, hncalls, hgs, hgc, hge, hgsv, hcmax, hop, hlp, hsl, hcl,
          hleft, hann⟩ := update_stats_ok_effects _ _ _ _ hupd
        obtain ⟨amsg, acost, ancalls, ags, agc, agsv, acmax, apt, aleft, aop, asl, acl⟩ :=
          add_messages_effects o { stM with cost := stM.cost + c } [m]
        subst h2
        refine ⟨?_, ?_, ?_, ?_, ?_, ?_, ?_, ?_, ?_, ⟨c, hc, ?_⟩, ?_, ⟨m₀, hm₀, hann⟩⟩
        · rw [ancalls]; dsimp only; rw [hncalls]
        · rw [ags]; dsimp only; rw [hgs]
        · rw [agc]; dsimp only; rw [hgc]
        · rw [show (add_messages o { stM with cost := stM.cost + c } [m]).1.g_env_calls
              = stM.g_env_calls by
            unfold add_messages; dsimp only; cases stM.live_path <;> rfl]
          rw [hge]
        · rw [acmax]; dsimp only; rw [hcmax]
        · rw [aop]; dsimp only; rw [hop]
        · rw [asl]; dsimp only; rw [hsl]
        · rw [acl]; dsimp only; rw [hcl]
        · intro hn
          rw [aleft]
          dsimp only
          exact hleft hn
        · rw [acost]; dsimp only; rw [hcost]
        · rw [amsg]; dsimp only; rw [hmsg]

/-- The context-window annotation does not touch the message's `extra`, so
the declared cost is unchanged by it. -/
theorem costFromMessage_dictSet (m : Msg) (v : Value) :
    costFromMessage (dictSet m "context_left_percent" v) = costFromMessage m := by
  unfold costFromMessage pyGetD
  rw [pyDictGet_dictSet_ne m "context_left_percent" "extra" v (by decide)]

/-- What a failing post-check `query` does: the call counters still advance
(the initiated query is counted), nothing is appended and no cost accrues. -/
theorem query_after_check_error_effects (o : Oracles) (st : AgentState) (e : PyExc)
    (st' : AgentState) (h : query_after_check o st = (Except.error e, st')) :
    st'.messages = st.messages ∧
    st'.cost = st.cost ∧
    st'.n_calls = st.n_calls + 1 ∧
    st'.g_started = st.g_started + 1 ∧
    ((∃ i ms, o.modelQuery i ms = Except.error e) ∧ st'.g_completed = st.g_completed ∨
      st'.g_completed = st.g_completed + 1) ∧
    st'.g_env_calls = st.g_env_calls ∧
    st'.context_window_max = st.context_window_max ∧
    st'.output_path = st.output_path ∧
    st'.step_limit = st.step_limit ∧
    st'.cost_limit = st.cost_limit ∧
    (st.context_window_max = none → st'.context_left_percent = st.context_left_percent) := by
  unfold query_after_check at h
  dsimp only at h
  split at h
  · rename_i e1 hmq
    rw [Prod.mk.injEq] at h
    obtain ⟨h1, h2⟩ := h
    cases h2
    cases Except.error.inj h1
    exact ⟨rfl, rfl, rfl, rfl, Or.inl ⟨⟨_, _, hmq⟩, rfl⟩, rfl, rfl, rfl, rfl, rfl,
      fun _ => rfl⟩
  · split at h
    · rw [Prod.mk.injEq] at h
      obtain ⟨-, h2⟩ := h
      cases h2
      exact ⟨rfl, rfl, rfl, rfl, Or.inr rfl, rfl, rfl, rfl, rfl, rfl, fun _ => rfl⟩
    · rename_i stM mM hupd
      split at h
      · rw [Prod.mk.injEq] at h
        obtain ⟨-, h2⟩ := h
        cases h2
        obtain ⟨hmsg, hcost, hncalls, hgs, hgc, hge, hgsv, hcmax, hop, hlp, hsl, hcl,
          hleft, -⟩ := update_stats_ok_effects _ _ _ _ hupd
        exact ⟨hmsg, hcost, hncalls, hgs, Or.inr hgc, hge, hcmax, hop, hsl, hcl,
          fun hn => hleft hn⟩
      · rw [Prod.mk.injEq] at h
        obtain ⟨h1, -⟩ := h
        cases h1

/-- `runEnvCalls` only issues environment calls: all agent-visible state is
unchanged in both components. -/
theorem runEnvCalls_effects (o : Oracles) (acts : List Value) : ∀ st : AgentState,
    (runEnvCalls o st acts).2.messages = st.messages ∧
    (runEnvCalls o st acts).2.cost = st.cost ∧
    (runEnvCalls o st acts).2.n_calls = st.n_calls ∧
    (runEnvCalls o st acts).2.g_started = st.g_started ∧
    (runEnvCalls o st acts).2.g_completed = st.g_completed ∧
    (runEnvCalls o st acts).2.context_window_max = st.context_window_max ∧
    (runEnvCalls o st acts).2.context_left_percent = st.context_left_percent ∧
    (runEnvCalls o st acts).2.context_window_prompt_tokens =
      st.context_window_prompt_tokens ∧
    (runEnvCalls o st acts).2.output_path = st.output_path ∧
    (runEnvCalls o st acts).2.step_limit = st.step_limit ∧
    (runEnvCalls o st acts).2.cost_limit = st.cost_limit := by
  induction acts with
  | nil =>
    intro st
    exact ⟨rfl, rfl, rfl, rfl, rfl, rfl, rfl, rfl, rfl, rfl, rfl⟩
  | cons a rest ih =>
    intro st
    unfold runEnvCalls
    dsimp only
    split
    · exact ⟨rfl, rfl, rfl, rfl, rfl, rfl, rfl, rfl, rfl, rfl, rfl⟩
    · rename_i obs heq
      have ih' := ih { st with g_env_calls := st.g_env_calls ++ [a] }
      split
      · rename_i e st2 hrec
        rw [hrec] at ih'
        exact ih'
      · rename_i outs st2 hrec
        rw [hrec] at ih'
        exact ih'

/-- `execute_actions` only issues environment calls and appends observation
messages: every message it appends comes from `formatObs`, and the counters,
cost and budget fields are unchanged. -/
theorem execute_actions_effects (o : Oracles) (st : AgentState) (msg : Msg) :
    (execute_actions o st msg).2.cost = st.cost ∧
    (execute_actions o st msg).2.n_calls = st.n_calls ∧
    (execute_actions o st msg).2.g_started = st.g_started ∧
    (execute_actions o st msg).2.g_completed = st.g_completed ∧
    (execute_actions o st msg).2.context_window_max = st.context_window_max ∧
    (execute_actions o st msg).2.context_left_percent = st.context_left_percent ∧
    (execute_actions o st msg).2.output_path = st.output_path ∧
    (execute_actions o st msg).2.step_limit = st.step_limit ∧
    (execute_actions o st msg).2.cost_limit = st.cost_limit ∧
    (∃ ms, (execute_actions o st msg).2.messages = st.messages ++ ms ∧
      (ms = [] ∨ ∃ outs tv, ms = o.formatObs msg outs tv)) := by
  unfold execute_actions
  split
  · split
    · exact ⟨rfl, rfl, rfl, rfl, rfl, rfl, rfl, rfl, rfl, [], by simp, Or.inl rfl⟩
    · rename_i acts hacts
      split
      · rename_i e st2 hrun
        obtain ⟨emsg, ecost, encalls, egs, egc, ecmax, eleft, ept, eop, esl, ecl⟩ :=
          runEnvCalls_effects o acts st
        rw [hrun] at emsg ecost encalls egs egc ecmax eleft ept eop esl ecl
        exact ⟨ecost, encalls, egs, egc, ecmax, eleft, eop, esl, ecl, [],
          by simpa using emsg, Or.inl rfl⟩
      · rename_i outs st2 hrun
        obtain ⟨emsg, ecost, encalls, egs, egc, ecmax, eleft, ept, eop, esl, ecl⟩ :=
          runEnvCalls_effects o acts st
        rw [hrun] at emsg ecost encalls egs egc ecmax eleft ept eop esl ecl
        obtain ⟨amsg, acost, ancalls, ags, agc, agsv, acmax, apt, aleft, aop, asl, acl⟩ :=
          add_messages_effects o st2 (o.formatObs msg outs (get_template_vars o st2 []))
        refine ⟨?_, ?_, ?_, ?_, ?_, ?_, ?_, ?_, ?_,
          o.formatObs msg outs (get_template_vars o st2 []), ?_, Or.inr ⟨_, _, rfl⟩⟩
        · rw [acost, ecost]
        · rw [ancalls, encalls]
        · rw [ags, egs]
        · rw [agc, egc]
        · rw [acmax, ecmax]
        · rw [aleft, eleft]
        · rw [aop, eop]
        · rw [asl, esl]
        · rw [acl, ecl]
        · rw [amsg, emsg]
  · exact ⟨rfl, rfl, rfl, rfl, rfl, rfl, rfl, rfl, rfl, [], by simp, Or.inl rfl⟩

/-! ## C7: unknown context window -/

/-- With a missing context-window map entry, `query` keeps both
`context_window_max` and `context_left_percent` unset. -/
theorem query_preserves_cw_none (o : Oracles) (st : AgentState)
    (hlk : ∀ s, o.lookupCW s = none)
    (hP : st.context_window_max = none ∧ st.context_left_percent = none) :
    (query o st).2.context_window_max = none ∧
    (query o st).2.context_left_percent = none := by
  unfold query
  split
  · exact hP
  · rw [if_pos (by rw [hP.1]; rfl), resolve_cw_lookup_none o st hlk]
    rcases hq : query_after_check o st with ⟨r, st'⟩
    cases r with
    | ok m =>
      obtain ⟨-, -, -, -, hcmax, -, -, -, hleft, -⟩ := query_after_check_ok_effects o st m st' hq
      exact ⟨by dsimp only; rw [hcmax, hP.1], by dsimp only; rw [hleft hP.1, hP.2]⟩
    | error e =>
      obtain ⟨-, -, -, -, -, -, hcmax, -, -, -, hleft⟩ :=
        query_after_check_error_effects o st e st' hq
      exact ⟨by dsimp only; rw [hcmax, hP.1], by dsimp only; rw [hleft hP.1, hP.2]⟩

/-- With a missing context-window map entry, one step of the loop keeps both
budget fields unset. -/
theorem stepAgent_preserves_cw_none (o : Oracles) (st : AgentState)
    (hlk : ∀ s, o.lookupCW s = none)
    (hP : st.context_window_max = none ∧ st.context_left_percent = none) :
    (stepAgent o st).2.context_window_max = none ∧
    (stepAgent o st).2.context_left_percent = none := by
  unfold stepAgent
  have hq := query_preserves_cw_none o st hlk hP
  rcases hqq : query o st with ⟨r, st1⟩
  rw [hqq] at hq
  cases r with
  | error e => exact hq
  | ok m =>
    obtain ⟨-, -, -, -, hcmax, hleft, -⟩ := execute_actions_effects o st1 m
    exact ⟨by rw [hcmax]; exact hq.1, by rw [hleft]; exact hq.2⟩

/-- `loopFinish` preserves any state predicate that `save` and the recursive
call preserve. -/
theorem loopFinish_preserves (o : Oracles) (recurse : AgentState → RunResult × AgentState)
    (P : AgentState → Prop)
    (hsaveP : ∀ st, P st → P ((save o st st.output_path []).2))
    (hrecP : ∀ st, P st → P ((recurse st).2)) (tryResult : Except PyExc Unit)
    (stA : AgentState) (hP : P stA) : P ((loopFinish o recurse tryResult stA).2) := by
  unfold loopFinish
  have hPB := hsaveP stA hP
  rcases hsave : save o stA stA.output_path [] with ⟨sr, stB⟩
  rw [hsave] at hPB
  cases sr with
  | error saveErr => try dsimp only
                     exact hPB
  | ok d =>
    try dsimp only
    cases tryResult with
    | error e => try dsimp only
                 exact hPB
    | ok u =>
      try dsimp only
      cases stB.messages.getLast? with
      | none => try dsimp only
                exact hPB
      | some m =>
        try dsimp only
        cases pyGet m "role" with
        | str s =>
          try dsimp only
          by_cases hs : (s == "exit") = true
          · rw [if_pos hs]; exact hPB
          · rw [if_neg hs]; exact hrecP stB hPB
        | null => exact hrecP stB hPB
        | int n => exact hrecP stB hPB
        | float q => exact hrecP stB hPB
        | list xs => exact hrecP stB hPB
        | dict xs => exact hrecP stB hPB
        | obj md attrs => exact hrecP stB hPB

/-- `handle_uncaught_exception` preserves the budget fields. -/
theorem handle_uncaught_effects (o : Oracles) (st : AgentState) (e : PyExc) :
    (handle_uncaught_exception o st e).1.messages =
      st.messages ++ [formatMessage "exit" e.text
        [("exit_status", Value.str e.clsName), ("submission", Value.str ""),
         ("exception_str", Value.str e.text), ("traceback", Value.str e.tb)]] ∧
    (handle_uncaught_exception o st e).1.cost = st.cost ∧
    (handle_uncaught_exception o st e).1.n_calls = st.n_calls ∧
    (handle_uncaught_exception o st e).1.g_started = st.g_started ∧
    (handle_uncaught_exception o st e).1.g_completed = st.g_completed ∧
    (handle_uncaught_exception o st e).1.g_saves = st.g_saves ∧
    (handle_uncaught_exception o st e).1.context_window_max = st.context_window_max ∧
    (handle_uncaught_exception o st e).1.context_window_prompt_tokens =
      st.context_window_prompt_tokens ∧
    (handle_uncaught_exception o st e).1.context_left_percent = st.context_left_percent ∧
    (handle_uncaught_exception o st e).1.output_path = st.output_path ∧
    (handle_uncaught_exception o st e).1.step_limit = st.step_limit ∧
    (handle_uncaught_exception o st e).1.cost_limit = st.cost_limit :=
  add_messages_effects o st _

/-- With a missing context-window map entry, the whole loop keeps both budget
fields unset. -/
theorem runLoop_preserves_cw_none (o : Oracles) (hlk : ∀ s, o.lookupCW s = none) :
    ∀ (fuel : Nat) (st : AgentState),
      st.context_window_max = none ∧ st.context_left_percent = none →
      (runLoop o fuel st).2.context_window_max = none ∧
      (runLoop o fuel st).2.context_left_percent = none := by
  intro fuel
  induction fuel with
  | zero => intro st hP; exact hP
  | succ fuel ih =>
    intro st hP
    have hsaveP : ∀ st2 : AgentState,
        (st2.context_window_max = none ∧ st2.context_left_percent = none) →
        ((save o st2 st2.output_path []).2.context_window_max = none ∧
         (save o st2 st2.output_path []).2.context_left_percent = none) := by
      intro st2 hP2
      obtain ⟨-, -, -, -, -, -, scmax, -, sleft, -⟩ := save_effects o st2 st2.output_path []
      exact ⟨by rw [scmax]; exact hP2.1, by rw [sleft]; exact hP2.2⟩
    have hfin := loopFinish_preserves o (runLoop o fuel)
      (fun s => s.context_window_max = none ∧ s.context_left_percent = none) hsaveP ih
    have hstepP := stepAgent_preserves_cw_none o st hlk hP
    unfold runLoop
    rcases hstep : stepAgent o st with ⟨r, st1⟩
    rw [hstep] at hstepP
    cases r with
    | ok ms => exact hfin _ st1 hstepP
    | error e =>
      dsimp only
      by_cases hf : e.isFlowInterrupt = true
      · rw [if_pos hf]
        obtain ⟨-, -, -, -, -, -, acmax, -, aleft, -⟩ := add_messages_effects o st1 e.messages
        exact hfin _ (add_messages o st1 e.messages).1
          ⟨by rw [acmax]; exact hstepP.1, by rw [aleft]; exact hstepP.2⟩
      · rw [if_neg hf]
        obtain ⟨-, -, -, -, -, -, hcmax, -, hleft, -, -, -⟩ := handle_uncaught_effects o st1 e
        exact hfin _ (handle_uncaught_exception o st1 e).1
          ⟨by rw [hcmax]; exact hstepP.1, by rw [hleft]; exact hstepP.2⟩

/-- C7 (amended): when no prompt-token count can be extracted the stats
update leaves all budget fields unset and does not annotate the message; when
a count is extracted but `context_window_max` is unknown, the update records
`context_window_prompt_tokens` but leaves `context_left_percent` unset and
does not annotate the message; and under a model name that resolves to no
context window (missing map entry), a whole run keeps `context_window_max`
and `context_left_percent` unset. -/
theorem C7_unknown_context_window :
    (∀ (st : AgentState) (m : Msg), extract_prompt_tokens m = Except.ok none →
      update_context_window_stats st m = Except.ok (st, m)) ∧
    (∀ (st : AgentState) (m : Msg) (pt : Int),
      extract_prompt_tokens m = Except.ok (some pt) →
      st.context_window_max = none →
      update_context_window_stats st m =
        Except.ok ({ st with context_window_prompt_tokens := some pt }, m)) ∧
    (∀ (o : Oracles) (fuel : Nat) (st : AgentState) (task : String)
      (kwargs : List (String × Value)), (∀ s, o.lookupCW s = none) →
      st.context_window_max = none → st.context_left_percent = none →
      (runAgent o fuel st task kwargs).2.context_window_max = none ∧
      (runAgent o fuel st task kwargs).2.context_left_percent = none) := by
  refine ⟨?_, ?_, ?_⟩
  · intro st m hex
    unfold update_context_window_stats
    rw [hex]
  · intro st m pt hex hcw
    unfold update_context_window_stats
    rw [hex]
    dsimp only
    rw [hcw]
  · intro o fuel st task kwargs hlk hcm hcl
    unfold runAgent
    dsimp only
    rw [resolve_cw_lookup_none o _ hlk]
    split
    · exact ⟨hcm, hcl⟩
    · split
      · exact ⟨hcm, hcl⟩
      · refine runLoop_preserves_cw_none o hlk fuel _ ⟨?_, ?_⟩
        · rw [(add_messages_effects o _ _).2.2.2.2.2.2.1]
          exact hcm
        · rw [(add_messages_effects o _ _).2.2.2.2.2.2.2.2.1]
          exact hcl

/-- C7 counterexample: with `context_window_max` unknown and a response
reporting `prompt_tokens = 5`, the update does not leave
`context_window_prompt_tokens` unset — it records it. -/
theorem C7_counterexample :
    update_context_window_stats baseState (usageMsg 5) =
      Except.ok ({ baseState with context_window_prompt_tokens := some 5 }, usageMsg 5) ∧
    baseState.context_window_max = none ∧
    baseState.context_window_prompt_tokens = none :=
  ⟨rfl, rfl, rfl⟩

/-- C7 witness: a non-integer usage leaves the update a no-op, and a full run
with an unknown model (no map entry, non-interactive) completes normally with
both context fields unset. -/
theorem C7_witness :
    update_context_window_stats baseState strUsageMsg = Except.ok (baseState, strUsageMsg) ∧
    (runAgent baseOracles 3 baseState "t" []).1.isOk = true ∧
    (runAgent baseOracles 3 baseState "t" []).2.context_window_max = none ∧
    (runAgent baseOracles 3 baseState "t" []).2.context_left_percent = none := by
  refine ⟨C7_unknown_context_window.1 baseState strUsageMsg rfl, rfl, ?_, ?_⟩
  · exact (C7_unknown_context_window.2.2 baseOracles 3 baseState "t" []
      (fun _ => rfl) rfl rfl).1
  · exact (C7_unknown_context_window.2.2 baseOracles 3 baseState "t" []
      (fun _ => rfl) rfl rfl).2

/-! ## C6: call counting and cost accounting -/

/-- When the limit check passes, `query` counts exactly one initiated model
query; the completion counter advances only when the model invocation itself
returned, and cost changes only by the (possibly zero) cost declared by a
returned response. -/
theorem query_counting (o : Oracles) (st : AgentState) (r : Except PyExc Msg)
    (st' : AgentState) (h : query o st = (r, st')) (hl : limitsHit st = false) :
    st'.n_calls = st.n_calls + 1 ∧
    st'.g_started = st.g_started + 1 ∧
    st'.output_path = st.output_path ∧
    st'.step_limit = st.step_limit ∧
    st'.cost_limit = st.cost_limit ∧
    ((∃ e, r = Except.error e ∧ st'.cost = st.cost ∧
        ((∃ i ms, o.modelQuery i ms = Except.error e) ∧ st'.g_completed = st.g_completed ∨
          st'.g_completed = st.g_completed + 1)) ∨
     (∃ m, r = Except.ok m ∧ st'.g_completed = st.g_completed + 1 ∧
        ∃ m₀ c, o.modelQuery st.g_started st.messages = Except.ok m₀ ∧
          costFromMessage m₀ = Except.ok c ∧ costFromMessage m = Except.ok c ∧
          st'.cost = st.cost + c)) := by
  unfold query at h
  rw [hl] at h
  simp only [Bool.false_eq_true, if_false] at h
  have hres := resolve_cw_effects o st
  obtain ⟨hRm, hRc, hRn, hRs, hRg, -, -, -, -, hRo, hRsl, hRcl, -⟩ := hres
  rcases hRfields : (if st.context_window_max.isNone then resolve_context_window_max o st
      else st) with stR
  have hR : stR.n_calls = st.n_calls ∧ stR.g_started = st.g_started ∧
      stR.g_completed = st.g_completed ∧ stR.cost = st.cost ∧
      stR.messages = st.messages ∧ stR.output_path = st.output_path ∧
      stR.step_limit = st.step_limit ∧ stR.cost_limit = st.cost_limit := by
    rw [← hRfields]
    split
    · exact ⟨hRn, hRs, hRg, hRc, hRm, hRo, hRsl, hRcl⟩
    · exact ⟨rfl, rfl, rfl, rfl, rfl, rfl, rfl, rfl⟩
  rw [hRfields] at h
  cases r with
  | ok m =>
    obtain ⟨hn, hs, hc, -, -, hop, hsl, hcl, -, ⟨c, hcost, hcadd⟩, -, ⟨m₀, hm₀, hann⟩⟩ :=
      query_after_check_ok_effects o stR m st' h
    have hcost₀ : costFromMessage m₀ = Except.ok c := by
      rcases hann with rfl | ⟨v, rfl⟩
      · exact hcost
      · rw [costFromMessage_dictSet] at hcost
        exact hcost
    refine ⟨by rw [hn, hR.1], by rw [hs, hR.2.1], by rw [hop, hR.2.2.2.2.2.1],
      by rw [hsl, hR.2.2.2.2.2.2.1], by rw [hcl, hR.2.2.2.2.2.2.2],
      Or.inr ⟨m, rfl, by rw [hc, hR.2.2.1], m₀, c, ?_, hcost₀, hcost,
        by rw [hcadd, hR.2.2.2.1]⟩⟩
    rw [← hR.2.1, ← hR.2.2.2.2.1]
    exact hm₀
  | error e =>
    obtain ⟨-, hc, hn, hs, hcomp, -, -, hop, hsl, hcl, -⟩ :=
      query_after_check_error_effects o stR e st' h
    refine ⟨by rw [hn, hR.1], by rw [hs, hR.2.1], by rw [hop, hR.2.2.2.2.2.1],
      by rw [hsl, hR.2.2.2.2.2.2.1], by rw [hcl, hR.2.2.2.2.2.2.2],
      Or.inl ⟨e, rfl, by rw [hc, hR.2.2.2.1], ?_⟩⟩
    rcases hcomp with ⟨hex, hcg⟩ | hcg
    · exact Or.inl ⟨hex, by rw [hcg, hR.2.2.1]⟩
    · exact Or.inr (by rw [hcg, hR.2.2.1])

/-- One loop step counts initiated queries into `n_calls`, keeps
`g_started = g_completed` when the model client never raises, and never
decreases the cost when the model only declares nonnegative costs. -/
theorem stepAgent_counting (o : Oracles) (st : AgentState) (r : Except PyExc (List Msg))
    (st1 : AgentState) (h : stepAgent o st = (r, st1)) :
    ((st1.n_calls - st.n_calls : Int) = (st1.g_started : Int) - (st.g_started : Int)) ∧
    ((∀ i ms e, o.modelQuery i ms ≠ Except.error e) → st.g_started = st.g_completed →
      st1.g_started = st1.g_completed) ∧
    ((∀ i ms m c, o.modelQuery i ms = Except.ok m → costFromMessage m = Except.ok c →
        0 ≤ c) → st.cost ≤ st1.cost) := by
  unfold stepAgent at h
  rcases hq : query o st with ⟨qr, stq⟩
  rw [hq] at h
  by_cases hl : limitsHit st = true
  · have hqeq : query o st = (Except.error (PyExc.limitsExceeded [limitsExceededMessage]), st) := by
      unfold query
      rw [if_pos hl]
    rw [hqeq] at hq
    obtain ⟨h1, h2⟩ := Prod.mk.injEq .. ▸ hq
    cases h1
    cases h2
    cases h
    exact ⟨by omega, fun _ hse => hse, fun _ => le_refl _⟩
  · rw [Bool.not_eq_true] at hl
    obtain ⟨hn, hs, hop, hsl, hcl, hout⟩ := query_counting o st qr stq hq hl
    cases qr with
    | error e =>
      cases h
      rcases hout with ⟨e', he', hcost, hcomp⟩ | ⟨m, hm, -⟩
      · cases Except.error.inj he'
        refine ⟨by omega, ?_, fun _ => le_of_eq hcost.symm⟩
        intro hok hse
        rcases hcomp with ⟨⟨i, ms, hmq⟩, -⟩ | hcg
        · exact absurd hmq (hok i ms _)
        · omega
      · cases hm
    | ok m =>
      rcases hout with ⟨e', he', -⟩ | ⟨m', hm', hcomp, m₀, c, hm₀, hc₀, -, hcadd⟩
      · cases he'
      · cases Except.ok.inj hm'
        dsimp only at h
        obtain ⟨ecost, encalls, egs, egc, -, -, -, -, -, -⟩ := execute_actions_effects o stq m
        rw [h] at ecost encalls egs egc
        dsimp only at ecost encalls egs egc
        refine ⟨by omega, ?_, ?_⟩
        · intro hok hse
          rw [egs, egc, hcomp, hs, hse]
        · intro hnn
          rw [ecost, hcadd]
          have := hnn _ _ m₀ c hm₀ hc₀
          linarith

/-- Over a whole loop, `n_calls` advances in lockstep with the number of
initiated model queries. -/
theorem runLoop_ncalls_initiated (o : Oracles) : ∀ (fuel : Nat) (st : AgentState),
    ((runLoop o fuel st).2.n_calls - st.n_calls : Int) =
      ((runLoop o fuel st).2.g_started : Int) - (st.g_started : Int) := by
  intro fuel
  induction fuel with
  | zero => intro st; simp [runLoop]
  | succ fuel ih =>
    intro st
    unfold runLoop
    rcases hstep : stepAgent o st with ⟨r, st1⟩
    have hcount := (stepAgent_counting o st r st1 hstep).1
    have hfin : ∀ (tr : Except PyExc Unit) (stA : AgentState),
        ((stA.n_calls - st.n_calls : Int) = (stA.g_started : Int) - st.g_started) →
        (((loopFinish o (runLoop o fuel) tr stA).2.n_calls - st.n_calls : Int) =
          ((loopFinish o (runLoop o fuel) tr stA).2.g_started : Int) - st.g_started) := by
      intro tr stA hA
      refine loopFinish_preserves o (runLoop o fuel)
        (fun x => (x.n_calls - st.n_calls : Int) = (x.g_started : Int) - st.g_started)
        ?_ ?_ tr stA hA
      · intro x hx
        obtain ⟨-, -, sn, sgs, -⟩ := save_effects o x x.output_path []
        rw [sn, sgs]
        exact hx
      · intro x hx
        have := ih x
        omega
    cases r with
    | ok ms => exact hfin _ st1 hcount
    | error e =>
      dsimp only
      by_cases hf : e.isFlowInterrupt = true
      · rw [if_pos hf]
        obtain ⟨-, -, an, ags, -⟩ := add_messages_effects o st1 e.messages
        exact hfin _ _ (by rw [an, ags]; exact hcount)
      · rw [if_neg hf]
        obtain ⟨-, -, hn, hgs, -⟩ := handle_uncaught_effects o st1 e
        exact hfin _ _ (by rw [hn, hgs]; exact hcount)

/-- When the model client never raises, every initiated query completes, over
a whole loop. -/
theorem runLoop_started_eq_completed (o : Oracles)
    (hok : ∀ (i : Nat) (ms : List Msg) (e : PyExc), o.modelQuery i ms ≠ Except.error e) :
    ∀ (fuel : Nat) (st : AgentState), st.g_started = st.g_completed →
      (runLoop o fuel st).2.g_started = (runLoop o fuel st).2.g_completed := by
  intro fuel
  induction fuel with
  | zero => intro st h; exact h
  | succ fuel ih =>
    intro st hse
    unfold runLoop
    rcases hstep : stepAgent o st with ⟨r, st1⟩
    have hcount := (stepAgent_counting o st r st1 hstep).2.1 hok hse
    have hfin : ∀ (tr : Except PyExc Unit) (stA : AgentState),
        stA.g_started = stA.g_completed →
        ((loopFinish o (runLoop o fuel) tr stA).2.g_started =
          (loopFinish o (runLoop o fuel) tr stA).2.g_completed) := by
      intro tr stA hA
      refine loopFinish_preserves o (runLoop o fuel)
        (fun x => x.g_started = x.g_completed) ?_ ?_ tr stA hA
      · intro x hx
        obtain ⟨-, -, -, sgs, sgc, -⟩ := save_effects o x x.output_path []
        rw [sgs, sgc]
        exact hx
      · intro x hx
        exact ih x hx
    cases r with
    | ok ms => exact hfin _ st1 hcount
    | error e =>
      dsimp only
      by_cases hf : e.isFlowInterrupt = true
      · rw [if_pos hf]
        obtain ⟨-, -, -, ags, agc, -⟩ := add_messages_effects o st1 e.messages
        exact hfin _ _ (by rw [ags, agc]; exact hcount)
      · rw [if_neg hf]
        obtain ⟨-, -, -, hgs, hgc, -⟩ := handle_uncaught_effects o st1 e
        exact hfin _ _ (by rw [hgs, hgc]; exact hcount)

/-- When the model only declares nonnegative costs, the accumulated cost is
monotonically non-decreasing over a whole loop. -/
theorem runLoop_cost_monotone (o : Oracles)
    (hnn : ∀ (i : Nat) (ms : List Msg) (m : Msg) (c : ℚ),
      o.modelQuery i ms = Except.ok m → costFromMessage m = Except.ok c → 0 ≤ c) :
    ∀ (fuel : Nat) (st : AgentState), st.cost ≤ (runLoop o fuel st).2.cost := by
  intro fuel
  induction fuel with
  | zero => intro st; exact le_refl _
  | succ fuel ih =>
    intro st
    unfold runLoop
    rcases hstep : stepAgent o st with ⟨r, st1⟩
    have hcount := (stepAgent_counting o st r st1 hstep).2.2 hnn
    have hfin : ∀ (tr : Except PyExc Unit) (stA : AgentState),
        st.cost ≤ stA.cost →
        st.cost ≤ (loopFinish o (runLoop o fuel) tr stA).2.cost := by
      intro tr stA hA
      refine loopFinish_preserves o (runLoop o fuel) (fun x => st.cost ≤ x.cost)
        ?_ ?_ tr stA hA
      · intro x hx
        obtain ⟨-, sc, -⟩ := save_effects o x x.output_path []
        rw [sc]
        exact hx
      · intro x hx
        exact le_trans hx (ih x)
    cases r with
    | ok ms => exact hfin _ st1 hcount
    | error e =>
      dsimp only
      by_cases hf : e.isFlowInterrupt = true
      · rw [if_pos hf]
        obtain ⟨-, ac, -⟩ := add_messages_effects o st1 e.messages
        exact hfin _ _ (by rw [ac]; exact hcount)
      · rw [if_neg hf]
        obtain ⟨-, hc, -⟩ := handle_uncaught_effects o st1 e
        exact hfin _ _ (by rw [hc]; exact hcount)

/-- C6 (amended): `n_calls` counts the model queries the loop has initiated —
it is incremented immediately before each model invocation, so a query that
raises is counted although not completed; when the model client never raises,
`n_calls` tracks completed queries exactly; a returned response advances the
completion count by one and contributes its declared cost, a missing cost
field contributing `0`; and the cost is monotonically non-decreasing across a
run whenever the model declares only nonnegative costs. -/
theorem C6_call_and_cost_accounting (o : Oracles) :
    (∀ st : AgentState, limitsHit st = true →
      query o st = (Except.error (PyExc.limitsExceeded [limitsExceededMessage]), st)) ∧
    (∀ (st : AgentState) (r : Except PyExc Msg) (st' : AgentState),
      query o st = (r, st') → limitsHit st = false →
      st'.n_calls = st.n_calls + 1 ∧ st'.g_started = st.g_started + 1) ∧
    (∀ (st : AgentState) (m : Msg) (st' : AgentState),
      query o st = (Except.ok m, st') →
      st'.g_completed = st.g_completed + 1 ∧
      ∃ c, costFromMessage m = Except.ok c ∧ st'.cost = st.cost + c) ∧
    (∀ (m : Msg) (xs : List (String × Value)),
      pyGetD m "extra" (Value.dict []) = Value.dict xs → pyDictGet xs "cost" = none →
      costFromMessage m = Except.ok 0) ∧
    (∀ (fuel : Nat) (st : AgentState),
      ((runLoop o fuel st).2.n_calls - st.n_calls : Int) =
        ((runLoop o fuel st).2.g_started : Int) - st.g_started) ∧
    ((∀ (i : Nat) (ms : List Msg) (e : PyExc), o.modelQuery i ms ≠ Except.error e) →
      ∀ (fuel : Nat) (st : AgentState), st.g_started = st.g_completed →
      (runLoop o fuel st).2.g_started = (runLoop o fuel st).2.g_completed) ∧
    ((∀ (i : Nat) (ms : List Msg) (m : Msg) (c : ℚ),
        o.modelQuery i ms = Except.ok m → costFromMessage m = Except.ok c → 0 ≤ c) →
      ∀ (fuel : Nat) (st : AgentState), st.cost ≤ (runLoop o fuel st).2.cost) := by
  refine ⟨?_, ?_, ?_, ?_, runLoop_ncalls_initiated o, runLoop_started_eq_completed o,
    runLoop_cost_monotone o⟩
  · intro st hl
    unfold query
    rw [if_pos hl]
  · intro st r st' h hl
    obtain ⟨hn, hs, -⟩ := query_counting o st r st' h hl
    exact ⟨hn, hs⟩
  · intro st m st' h
    by_cases hl : limitsHit st = true
    · have : query o st = (Except.error (PyExc.limitsExceeded [limitsExceededMessage]), st) := by
        unfold query
        rw [if_pos hl]
      rw [this] at h
      obtain ⟨h1, -⟩ := Prod.mk.injEq .. ▸ h
      cases h1
    · rw [Bool.not_eq_true] at hl
      obtain ⟨-, -, -, -, -, hout⟩ := query_counting o st (Except.ok m) st' h hl
      rcases hout with ⟨e, he, -⟩ | ⟨m', hm', hcomp, m₀, c, -, -, hcm, hcadd⟩
      · cases he
      · cases Except.ok.inj hm'
        exact ⟨hcomp, c, hcm, hcadd⟩
  · intro m xs hextra hkey
    unfold costFromMessage
    rw [hextra]
    dsimp only
    rw [hkey]
    rfl

/-- C6 counterexample: when the model raises a flow interrupt on its first
invocation, the run still ends normally, but `n_calls` is `1` while zero
model queries completed — `n_calls` does not equal the number of completed
model queries. -/
theorem C6_counterexample :
    (runAgent interruptOracles 3 baseState "t" []).1.isOk = true ∧
    (runAgent interruptOracles 3 baseState "t" []).2.n_calls = 1 ∧
    (runAgent interruptOracles 3 baseState "t" []).2.g_completed = 0 :=
  ⟨rfl, rfl, rfl⟩

/-- C6 witness: the limit-hit case leaves the state untouched; a benign
oracle family satisfies the nonnegative-cost and never-raising hypotheses, so
the loop-level accounting facts apply to it. -/
theorem C6_witness :
    query baseOracles { baseState with step_limit := 1, n_calls := 1 } =
      (Except.error (PyExc.limitsExceeded [limitsExceededMessage]),
       { baseState with step_limit := 1, n_calls := 1 }) ∧
    costFromMessage [("role", Value.str "assistant"), ("extra", Value.dict [])] =
      Except.ok 0 ∧
    ((runLoop baseOracles 2 baseState).2.n_calls - baseState.n_calls : Int) =
      ((runLoop baseOracles 2 baseState).2.g_started : Int) - baseState.g_started ∧
    (runLoop baseOracles 2 baseState).2.g_started =
      (runLoop baseOracles 2 baseState).2.g_completed ∧
    baseState.cost ≤ (runLoop baseOracles 2 baseState).2.cost := by
  refine ⟨(C6_call_and_cost_accounting baseOracles).1 _ (by decide),
    (C6_call_and_cost_accounting baseOracles).2.2.2.1 _ [] rfl rfl,
    (C6_call_and_cost_accounting baseOracles).2.2.2.2.1 2 baseState,
    (C6_call_and_cost_accounting baseOracles).2.2.2.2.2.1 ?_ 2 baseState rfl,
    (C6_call_and_cost_accounting baseOracles).2.2.2.2.2.2 ?_ 2 baseState⟩
  · intro i ms e h
    cases h
  · intro i ms m c hm hc
    cases Except.ok.inj hm
    cases Except.ok.inj hc.symm
    norm_num

/-! ## C3: uncaught exceptions -/

/-- `serialize` succeeds whenever the last message's `extra` is a mapping (or
absent). -/
theorem serializeData_ok (o : Oracles) (st : AgentState) (ex : List Value)
    (xs : List (String × Value))
    (hm : pyGetD (st.messages.getLast?.getD []) "extra" (Value.dict []) = Value.dict xs) :
    ∃ d, serializeData o st ex = Except.ok d := by
  unfold serializeData
  dsimp only
  rw [hm]
  exact ⟨_, rfl⟩

/-- The iteration tail at a pending exception: the snapshot is built and
written, the state is otherwise unchanged, and the pending exception is then
re-raised. -/
theorem loopFinish_error (o : Oracles) (recurse : AgentState → RunResult × AgentState)
    (e : PyExc) (stA : AgentState) (d : Value)
    (hd : serializeData o stA [] = Except.ok d)
    (hsnap : stA.output_path = none ∨ o.snapOk stA.g_snap_writes.length = true) :
    (loopFinish o recurse (Except.error e) stA).1 = RunResult.raised e ∧
    (loopFinish o recurse (Except.error e) stA).2.messages = stA.messages ∧
    (loopFinish o recurse (Except.error e) stA).2.g_saves = stA.g_saves ++ [d] := by
  have hsave : save o stA stA.output_path [] =
      (Except.ok d, (save o stA stA.output_path []).2) ∧
      (save o stA stA.output_path []).2.g_saves = stA.g_saves ++ [d] := by
    unfold save
    rw [hd]
    dsimp only
    rcases hsnap with hnone | hok
    · rw [hnone]
      exact ⟨rfl, rfl⟩
    · cases hpath : stA.output_path with
      | none => exact ⟨rfl, rfl⟩
      | some p =>
        dsimp only
        rw [hok]
        exact ⟨rfl, rfl⟩
  obtain ⟨-, -, -, -, -, -, -, -, -, -, -, -⟩ := save_effects o stA stA.output_path []
  obtain ⟨hmsgs, -⟩ := save_effects o stA stA.output_path []
  unfold loopFinish
  rw [hsave.1]
  exact ⟨rfl, hmsgs, hsave.2⟩

/-- C3: an exception other than the flow-interrupt and limits signals raised
inside a step is recorded as a terminal `exit` message whose `extra` carries
the exception's class name, an empty submission, the exception text and the
captured traceback; a snapshot (containing that message) is then built and
saved; and the original exception is re-raised to the caller after that save. -/
theorem C3_uncaught_exception_flow (o : Oracles) (st st1 : AgentState)
    (n t tb : String) (fuel : Nat)
    (hstep : stepAgent o st = (Except.error (PyExc.uncaught n t tb), st1))
    (hsnap : st1.output_path = none ∨
      o.snapOk (handle_uncaught_exception o st1 (PyExc.uncaught n t tb)).1.g_snap_writes.length
        = true) :
    ∃ d,
      (runLoop o (fuel + 1) st).1 = RunResult.raised (PyExc.uncaught n t tb) ∧
      (runLoop o (fuel + 1) st).2.messages = st1.messages ++
        [formatMessage "exit" t
          [("exit_status", Value.str n), ("submission", Value.str ""),
           ("exception_str", Value.str t), ("traceback", Value.str tb)]] ∧
      serializeData o (handle_uncaught_exception o st1 (PyExc.uncaught n t tb)).1 []
        = Except.ok d ∧
      (runLoop o (fuel + 1) st).2.g_saves = st1.g_saves ++ [d] := by
  obtain ⟨hmsgs, -, -, -, -, hgsaves, -⟩ :=
    handle_uncaught_effects o st1 (PyExc.uncaught n t tb)
  obtain ⟨hop, -⟩ :
      (handle_uncaught_exception o st1 (PyExc.uncaught n t tb)).1.output_path
        = st1.output_path ∧ True :=
    ⟨((add_messages_effects o st1 _).2.2.2.2.2.2.2.2.2).1, trivial⟩
  obtain ⟨d, hd⟩ := serializeData_ok o
    (handle_uncaught_exception o st1 (PyExc.uncaught n t tb)).1 []
    [("exit_status", Value.str n), ("submission", Value.str ""),
     ("exception_str", Value.str t), ("traceback", Value.str tb)]
    (by
      rw [hmsgs]
      simp [formatMessage, pyGetD, pyDictGet, List.find?, PyExc.text, PyExc.clsName,
        PyExc.tb])
  have hfin := loopFinish_error o (runLoop o fuel) (PyExc.uncaught n t tb)
    (handle_uncaught_exception o st1 (PyExc.uncaught n t tb)).1 d hd
    (by
      rcases hsnap with h | h
      · exact Or.inl (by rw [hop, h])
      · exact Or.inr h)
  refine ⟨d, ?_, ?_, hd, ?_⟩
  · unfold runLoop
    rw [hstep]
    dsimp only
    rw [if_neg (by simp [PyExc.isFlowInterrupt])]
    exact hfin.1
  · unfold runLoop
    rw [hstep]
    dsimp only
    rw [if_neg (by simp [PyExc.isFlowInterrupt])]
    rw [hfin.2.1, hmsgs]
    rfl
  · unfold runLoop
    rw [hstep]
    dsimp only
    rw [if_neg (by simp [PyExc.isFlowInterrupt])]
    rw [hfin.2.2, hgsaves]

/-- C3 witness: a model raising `RuntimeError` on its first invocation makes
the loop append the diagnostic exit message, snapshot it, and re-raise the
original error. -/
theorem C3_witness :
    ∃ d,
      (runLoop errorOracles 1 baseState).1 =
        RunResult.raised (PyExc.uncaught "RuntimeError" "boom" "tb0") ∧
      (runLoop errorOracles 1 baseState).2.messages =
        [formatMessage "exit" "boom"
          [("exit_status", Value.str "RuntimeError"), ("submission", Value.str ""),
           ("exception_str", Value.str "boom"), ("traceback", Value.str "tb0")]] ∧
      (runLoop errorOracles 1 baseState).2.g_saves = [d] := by
  obtain ⟨d, h1, h2, h3, h4⟩ := C3_uncaught_exception_flow errorOracles baseState
    { baseState with n_calls := 1, g_started := 1 } "RuntimeError" "boom" "tb0" 0
    rfl (Or.inl rfl)
  exact ⟨d, h1, by simpa using h2, by simpa using h4⟩

/-! ## C1: normal termination -/

/-- The context-window annotation preserves exit-well-formedness. -/
theorem MsgExitWF_dictSet (m : Msg) (v : Value) (h : MsgExitWF m) :
    MsgExitWF (dictSet m "context_left_percent" v) := by
  intro hrole
  rw [show pyGet (dictSet m "context_left_percent" v) "role" = pyGet m "role" by
    unfold pyGet
    rw [pyDictGet_dictSet_ne m "context_left_percent" "role" v (by decide)]] at hrole
  obtain ⟨xs, hx, h1, h2⟩ := h hrole
  refine ⟨xs, ?_, h1, h2⟩
  unfold pyGet at hx ⊢
  rw [pyDictGet_dictSet_ne m "context_left_percent" "extra" v (by decide)]
  exact hx

/-- The synthetic limits message is exit-well-formed. -/
theorem MsgExitWF_limits : MsgExitWF limitsExceededMessage :=
  fun _ => ⟨_, rfl, rfl, rfl⟩

/-- The diagnostic exit message of `handle_uncaught_exception` is
exit-well-formed. -/
theorem MsgExitWF_handle (t n txt tb : String) :
    MsgExitWF (formatMessage "exit" t
      [("exit_status", Value.str n), ("submission", Value.str ""),
       ("exception_str", Value.str txt), ("traceback", Value.str tb)]) :=
  fun _ => ⟨_, rfl, rfl, rfl⟩

/-- A message formatted with a non-exit role is (vacuously)
exit-well-formed. -/
theorem MsgExitWF_nonexit (role content : String) (extra : List (String × Value))
    (h : role ≠ "exit") : MsgExitWF (formatMessage role content extra) := by
  intro hr
  have : Value.str role = Value.str "exit" := hr
  injection this with h'
  exact absurd h' h

/-- `add_messages` preserves the invariant when the new messages are
well-formed. -/
theorem add_messages_inv (o : Oracles) (st : AgentState) (msgs : List Msg)
    (hst : InvWF st) (hmsgs : ∀ m ∈ msgs, MsgExitWF m) :
    InvWF (add_messages o st msgs).1 := by
  intro m hm
  rw [(add_messages_effects o st msgs).1] at hm
  rcases List.mem_append.mp hm with h | h
  exacts [hst m h, hmsgs m h]

/-- `save` preserves the invariant. -/
theorem save_inv (o : Oracles) (st : AgentState) (path : Option String)
    (ex : List Value) (hst : InvWF st) : InvWF (save o st path ex).2 := by
  intro m hm
  rw [(save_effects o st path ex).1] at hm
  exact hst m hm

/-- Any error of `runEnvCalls` was raised by the environment collaborator. -/
theorem runEnvCalls_error_cases (o : Oracles) (acts : List Value) :
    ∀ (st : AgentState) (e : PyExc) (st' : AgentState),
      runEnvCalls o st acts = (Except.error e, st') →
      ∃ i a, o.envExecute i a = Except.error e := by
  induction acts with
  | nil =>
    intro st e st' h
    cases h
  | cons a rest ih =>
    intro st e st' h
    unfold runEnvCalls at h
    dsimp only at h
    split at h
    · rename_i e1 heq
      rw [Prod.mk.injEq] at h
      obtain ⟨h1, -⟩ := h
      cases Except.error.inj h1
      exact ⟨_, _, heq⟩
    · rename_i obs heq
      split at h
      · rename_i e1 st2 hrec
        rw [Prod.mk.injEq] at h
        obtain ⟨h1, -⟩ := h
        cases Except.error.inj h1
        exact ih _ _ _ hrec
      · rw [Prod.mk.injEq] at h
        obtain ⟨h1, -⟩ := h
        cases h1

/-- `execute_actions` preserves the invariant, and any exception it
propagates is either the environment collaborator's or an `uncaught` one. -/
theorem execute_actions_inv (o : Oracles) (st : AgentState) (msg : Msg)
    (r : Except PyExc (List Msg)) (st' : AgentState)
    (h : execute_actions o st msg = (r, st'))
    (hwf : OracleExitWF o) (hst : InvWF st) :
    InvWF st' ∧ (∀ e, r = Except.error e → ExcWF e) := by
  constructor
  · intro m hm
    obtain ⟨-, -, -, -, -, -, -, -, -, ms, hms, hsrc⟩ := execute_actions_effects o st msg
    rw [h] at hms
    dsimp only at hms
    rw [hms] at hm
    rcases List.mem_append.mp hm with hmem | hmem
    · exact hst m hmem
    · rcases hsrc with rfl | ⟨outs, tv, rfl⟩
      · cases hmem
      · exact hwf.2.2.2.1 _ _ _ _ hmem
  · intro e he
    subst he
    unfold execute_actions at h
    split at h
    · split at h
      · rename_i e1 heq
        rw [Prod.mk.injEq] at h
        obtain ⟨h1, -⟩ := h
        cases Except.error.inj h1
        have hshape : e = PyExc.uncaught "TypeError" "object is not iterable" "" := by
          unfold iterItems at heq
          split at heq <;> simp_all
        subst hshape
        intro m hm
        simp [PyExc.messages] at hm
      · split at h
        · rename_i e1 st2 hrun
          rw [Prod.mk.injEq] at h
          obtain ⟨h1, -⟩ := h
          cases Except.error.inj h1
          obtain ⟨i, a, henv⟩ := runEnvCalls_error_cases o _ _ _ _ hrun
          exact hwf.2.2.1 _ _ _ henv
        · rw [Prod.mk.injEq] at h
          obtain ⟨h1, -⟩ := h
          cases h1
    · rw [Prod.mk.injEq] at h
      obtain ⟨h1, -⟩ := h
      cases Except.error.inj h1
      intro m hm
      simp [PyExc.messages] at hm

/-- The value found by `pyGet` at a present mapping is what `pyGetD` finds. -/
theorem pyGetD_eq_of_pyGet_dict (m : Msg) (k : String) (xs : List (String × Value))
    (h : pyGet m k = Value.dict xs) : pyGetD m k (Value.dict []) = Value.dict xs := by
  unfold pyGet at h
  unfold pyGetD
  cases hpd : pyDictGet m k with
  | none => rw [hpd] at h; simp at h
  | some v => rw [hpd] at h; simpa using h

/-- The post-check `query` preserves the invariant, and any exception it
propagates carries only well-formed messages. -/
theorem query_after_check_inv (o : Oracles) (st : AgentState) (r : Except PyExc Msg)
    (st' : AgentState) (h : query_after_check o st = (r, st'))
    (hwf : OracleExitWF o) (hst : InvWF st) :
    InvWF st' ∧ (∀ e, r = Except.error e → ExcWF e) := by
  unfold query_after_check at h
  dsimp only at h
  split at h
  case h_1 e1 hmq =>
    rw [Prod.mk.injEq] at h
    obtain ⟨h1, h2⟩ := h
    cases h1
    cases h2
    refine ⟨fun m hm => hst m hm, ?_⟩
    intro e he
    cases Except.error.inj he
    exact hwf.2.1 _ _ _ hmq
  case h_2 m₀ hmq =>
    split at h
    case h_1 e1 hupd =>
      rw [Prod.mk.injEq] at h
      obtain ⟨h1, h2⟩ := h
      cases h1
      cases h2
      refine ⟨fun m hm => hst m hm, ?_⟩
      intro e he
      cases Except.error.inj he
      obtain ⟨n, t, tb, rfl⟩ := update_context_window_stats_error_uncaught _ _ _ hupd
      intro m hm
      simp [PyExc.messages] at hm
    case h_2 stM mM hupd =>
      split at h
      case h_1 e1 hcost =>
        rw [Prod.mk.injEq] at h
        obtain ⟨h1, h2⟩ := h
        cases h1
        cases h2
        obtain ⟨hmsg, -⟩ := update_stats_ok_effects _ _ _ _ hupd
        refine ⟨fun m hm => hst m (by rw [hmsg] at hm; exact hm), ?_⟩
        intro e he
        cases Except.error.inj he
        obtain ⟨n, t, tb, rfl⟩ := costFromMessage_error_uncaught _ _ hcost
        intro m hm
        simp [PyExc.messages] at hm
      case h_2 c hcost =>
        rw [Prod.mk.injEq] at h
        obtain ⟨h1, h2⟩ := h
        cases h1
        cases h2
        obtain ⟨hmsg, -, -, -, -, -, -, -, -, -, -, -, -, hann⟩ :=
          update_stats_ok_effects _ _ _ _ hupd
        have hWFm : MsgExitWF mM := by
          have h₀ := hwf.1 _ _ _ hmq
          rcases hann with rfl | ⟨v, rfl⟩
          exacts [h₀, MsgExitWF_dictSet _ _ h₀]
        refine ⟨?_, fun e he => by cases he⟩
        refine add_messages_inv o _ [mM] ?_ ?_
        · intro m hm
          exact hst m (by rw [hmsg] at hm; exact hm)
        · intro m hm
          rw [List.mem_singleton] at hm
          subst hm
          exact hWFm

/-- `query` preserves the invariant, and any exception it raises carries only
well-formed messages. -/
theorem query_inv (o : Oracles) (st : AgentState) (r : Except PyExc Msg)
    (st' : AgentState) (h : query o st = (r, st')) (hwf : OracleExitWF o)
    (hst : InvWF st) : InvWF st' ∧ (∀ e, r = Except.error e → ExcWF e) := by
  unfold query at h
  split at h
  case isTrue hl =>
    rw [Prod.mk.injEq] at h
    obtain ⟨h1, h2⟩ := h
    cases h1
    cases h2
    refine ⟨hst, ?_⟩
    intro e he
    cases Except.error.inj he
    intro m hm
    rw [show (PyExc.limitsExceeded [limitsExceededMessage]).messages =
      [limitsExceededMessage] from rfl, List.mem_singleton] at hm
    subst hm
    exact MsgExitWF_limits
  case isFalse hl =>
    refine query_after_check_inv o _ r st' h hwf ?_
    intro m hm
    by_cases hn : st.context_window_max.isNone = true
    · rw [if_pos hn, (resolve_cw_effects o st).1] at hm
      exact hst m hm
    · rw [if_neg hn] at hm
      exact hst m hm

/-- One loop step preserves the invariant, and any exception it propagates
carries only well-formed messages. -/
theorem stepAgent_inv (o : Oracles) (st : AgentState) (r : Except PyExc (List Msg))
    (st1 : AgentState) (h : stepAgent o st = (r, st1)) (hwf : OracleExitWF o)
    (hst : InvWF st) : InvWF st1 ∧ (∀ e, r = Except.error e → ExcWF e) := by
  unfold stepAgent at h
  rcases hq : query o st with ⟨qr, stq⟩
  rw [hq] at h
  have hqi := query_inv o st qr stq hq hwf hst
  cases qr with
  | error e =>
    dsimp only at h
    rw [Prod.mk.injEq] at h
    obtain ⟨h1, h2⟩ := h
    cases h1
    cases h2
    refine ⟨hqi.1, ?_⟩
    intro e' he'
    cases Except.error.inj he'
    exact hqi.2 _ rfl
  | ok m =>
    dsimp only at h
    exact execute_actions_inv o stq m r st1 h hwf hqi.1

/-- A last element of a list is a member. -/
theorem getLast?_mem_list {α : Type} {l : List α} {a : α} (h : l.getLast? = some a) :
    a ∈ l := by
  obtain ⟨hne, rfl⟩ := List.mem_getLast?_eq_getLast (show a ∈ l.getLast? from h)
  exact List.getLast_mem hne

/-- When the iteration tail returns normally, the returned value is the
`extra` of the last message, whose role is `"exit"` and which carries
`exit_status` and `submission` (given the invariant and the same property of
the recursive call). -/
theorem loopFinish_ok_exit (o : Oracles) (recurse : AgentState → RunResult × AgentState)
    (tr : Except PyExc Unit) (stA : AgentState) (ret : Value) (st' : AgentState)
    (h : loopFinish o recurse tr stA = (RunResult.ok ret, st'))
    (hstA : InvWF stA)
    (hrec : ∀ (st2 : AgentState) (ret2 : Value) (st2' : AgentState), InvWF st2 →
      recurse st2 = (RunResult.ok ret2, st2') →
      ∃ m, st2'.messages.getLast? = some m ∧ pyGet m "role" = Value.str "exit" ∧
        ret2 = pyGetD m "extra" (Value.dict []) ∧
        ∃ xs, ret2 = Value.dict xs ∧ (pyDictGet xs "exit_status").isSome = true ∧
          (pyDictGet xs "submission").isSome = true) :
    ∃ m, st'.messages.getLast? = some m ∧ pyGet m "role" = Value.str "exit" ∧
      ret = pyGetD m "extra" (Value.dict []) ∧
      ∃ xs, ret = Value.dict xs ∧ (pyDictGet xs "exit_status").isSome = true ∧
        (pyDictGet xs "submission").isSome = true := by
  unfold loopFinish at h
  have hInvB := save_inv o stA stA.output_path [] hstA
  rcases hsave : save o stA stA.output_path [] with ⟨sr, stB⟩
  rw [hsave] at h hInvB
  cases sr with
  | error saveErr =>
    dsimp only at h
    rw [Prod.mk.injEq] at h
    obtain ⟨h1, -⟩ := h
    cases h1
  | ok d =>
    dsimp only at h
    cases tr with
    | error e =>
      dsimp only at h
      rw [Prod.mk.injEq] at h
      obtain ⟨h1, -⟩ := h
      cases h1
    | ok u =>
      dsimp only at h
      split at h
      case h_1 =>
        rw [Prod.mk.injEq] at h
        obtain ⟨h1, -⟩ := h
        cases h1
      case h_2 m hm =>
        split at h
        case h_1 a s hrole =>
          by_cases hs : (s == "exit") = true
          · rw [if_pos hs] at h
            rw [Prod.mk.injEq] at h
            obtain ⟨h1, h2⟩ := h
            cases h1
            cases h2
            have hwfm := hInvB m (getLast?_mem_list hm)
            have hrole' : pyGet m "role" = Value.str "exit" := by
              rw [hrole]
              congr 1
              simpa using hs
            obtain ⟨xs, hx, h1s, h2s⟩ := hwfm hrole'
            have hpd := pyGetD_eq_of_pyGet_dict m "extra" xs hx
            exact ⟨m, hm, hrole', rfl, xs, hpd, h1s, h2s⟩
          · rw [if_neg hs] at h
            exact hrec stB _ _ hInvB h
        case h_2 => exact hrec stB _ _ hInvB h

/-- When the loop returns normally, the last message's role is `"exit"` and
the returned value is that message's `extra`, which carries `exit_status` and
`submission`. -/
theorem runLoop_exit_wf (o : Oracles) (hwf : OracleExitWF o) :
    ∀ (fuel : Nat) (st : AgentState), InvWF st →
    ∀ (ret : Value) (st' : AgentState), runLoop o fuel st = (RunResult.ok ret, st') →
    ∃ m, st'.messages.getLast? = some m ∧ pyGet m "role" = Value.str "exit" ∧
      ret = pyGetD m "extra" (Value.dict []) ∧
      ∃ xs, ret = Value.dict xs ∧ (pyDictGet xs "exit_status").isSome = true ∧
        (pyDictGet xs "submission").isSome = true := by
  intro fuel
  induction fuel with
  | zero =>
    intro st hst ret st' h
    rw [show runLoop o 0 st = (RunResult.fuelExhausted, st) from rfl] at h
    rw [Prod.mk.injEq] at h
    obtain ⟨h1, -⟩ := h
    cases h1
  | succ fuel ih =>
    intro st hst ret st' h
    unfold runLoop at h
    rcases hstep : stepAgent o st with ⟨r, st1⟩
    rw [hstep] at h
    have hsi := stepAgent_inv o st r st1 hstep hwf hst
    cases r with
    | ok ms =>
      dsimp only at h
      exact loopFinish_ok_exit o _ _ _ _ _ h hsi.1
        (fun st2 ret2 st2' hI hr => ih st2 hI ret2 st2' hr)
    | error e =>
      dsimp only at h
      by_cases hf : e.isFlowInterrupt = true
      · rw [if_pos hf] at h
        have hInv2 : InvWF (add_messages o st1 e.messages).1 :=
          add_messages_inv o st1 e.messages hsi.1 (hsi.2 e rfl)
        exact loopFinish_ok_exit o _ _ _ _ _ h hInv2
          (fun st2 ret2 st2' hI hr => ih st2 hI ret2 st2' hr)
      · rw [if_neg hf] at h
        have hInv2 : InvWF (handle_uncaught_exception o st1 e).1 := by
          refine add_messages_inv o st1 _ hsi.1 ?_
          intro m hm
          rw [List.mem_singleton] at hm
          subst hm
          exact MsgExitWF_handle e.text e.clsName e.text e.tb
        exact loopFinish_ok_exit o _ _ _ _ _ h hInv2
          (fun st2 ret2 st2' hI hr => ih st2 hI ret2 st2' hr)

/-- C1: whenever `run` returns normally, the last message of the sequence has
role `"exit"` and the returned value is exactly that message's `extra`
mapping, containing (under the spec's data-model constraint on collaborator
messages) at least `exit_status` and `submission`. -/
theorem C1_run_returns_terminal_extra (o : Oracles) (fuel : Nat) (st : AgentState)
    (task : String) (kwargs : List (String × Value)) (ret : Value) (st' : AgentState)
    (hwf : OracleExitWF o)
    (h : runAgent o fuel st task kwargs = (RunResult.ok ret, st')) :
    ∃ m, st'.messages.getLast? = some m ∧ pyGet m "role" = Value.str "exit" ∧
      ret = pyGetD m "extra" (Value.dict []) ∧
      ∃ xs, ret = Value.dict xs ∧ (pyDictGet xs "exit_status").isSome = true ∧
        (pyDictGet xs "submission").isSome = true := by
  unfold runAgent at h
  dsimp only at h
  split at h
  · rw [Prod.mk.injEq] at h
    obtain ⟨h1, -⟩ := h
    cases h1
  · split at h
    · rw [Prod.mk.injEq] at h
      obtain ⟨h1, -⟩ := h
      cases h1
    · refine runLoop_exit_wf o hwf fuel _ ?_ ret st' h
      refine add_messages_inv o _ _ ?_ ?_
      · intro m hm
        rw [(resolve_cw_effects o _).1] at hm
        simp at hm
      · intro m hm
        rw [show [formatMessage "system" _ [], formatMessage "user" _ []]
          = [formatMessage "system" _ [], formatMessage "user" _ []] from rfl] at hm
        rcases List.mem_cons.mp hm with rfl | hm2
        · exact MsgExitWF_nonexit _ _ _ (by decide)
        · rcases List.mem_singleton.mp hm2 with rfl
          exact MsgExitWF_nonexit _ _ _ (by decide)

/-- C1 witness: with a model that terminates immediately, `run` returns
normally, the last message's role is `"exit"`, and the return value is its
`extra` carrying `exit_status` and `submission`. -/
theorem C1_witness :
    ∃ m, (runAgent baseOracles 3 baseState "t" []).2.messages.getLast? = some m ∧
      pyGet m "role" = Value.str "exit" ∧
      (runAgent baseOracles 3 baseState "t" []).1 =
        RunResult.ok (pyGetD m "extra" (Value.dict [])) ∧
      ∃ xs, pyGetD m "extra" (Value.dict []) = Value.dict xs ∧
        (pyDictGet xs "exit_status").isSome = true ∧
        (pyDictGet xs "submission").isSome = true := by
  have hwf : OracleExitWF baseOracles := by
    refine ⟨?_, ?_, ?_, ?_, ?_⟩
    · intro i ms m hm
      cases Except.ok.inj hm
      exact fun _ => ⟨_, rfl, rfl, rfl⟩
    · intro i ms e hm
      cases hm
    · intro i a e hm
      cases hm
    · intro msg outs tv m hm
      cases hm
    · intro tpl v e hm
      cases hm
  have h : runAgent baseOracles 3 baseState "t" [] =
      (RunResult.ok (Value.dict
        [("exit_status", Value.str "Submitted"), ("submission", Value.str "diff")]),
       (runAgent baseOracles 3 baseState "t" []).2) := rfl
  obtain ⟨m, h1, h2, h3, xs, h4, h5, h6⟩ :=
    C1_run_returns_terminal_extra baseOracles 3 baseState "t" [] _ _ hwf h
  refine ⟨m, h1, h2, ?_, xs, h3 ▸ h4, h5, h6⟩
  have hfst : (runAgent baseOracles 3 baseState "t" []).1 =
      RunResult.ok (Value.dict
        [("exit_status", Value.str "Submitted"), ("submission", Value.str "diff")]) :=
    congrArg Prod.fst h
  rw [hfst, h3]

end Mini
